import Mathlib

/-!
# EYESY_OF: input fusion and script lifecycle of `ofApp`

A shallow embedding of `src/ofApp.cpp` / `src/ofApp.h`.

* The member variables of `ofApp` and the function-local `static` variables of
  `ofApp::update` and `ofApp::newMidiMessage` are the fields of `App`.
* The Lua state is represented by the globals that `ofApp` itself writes
  (`LuaGlobals`); what a script does with them, and the calls into the script
  host (`lua.init`, `lua.doScript`, `lua.scriptSetup`, `lua.scriptUpdate`,
  `lua.scriptDraw`), the frame buffer, the screen grab and the on-screen display
  drawing are outside the embedding.
* Values that come from outside `ofApp` are explicit inputs: the waiting OSC
  messages, `midiIn.isOpen()`, `midiClock->getBeats()`, `midiClock->getBpm()` and
  `ofGetElapsedTimef()`.
* The audio path (`audioIn`, `left`, `right`, `audioLevel`, `bufferCounter`)
  shares no variable with the rest; it has its own state `Audio`.
* `float` values are exact rationals; `int` is `Int` wrapped to 32 bits,
  `unsigned int` is `Nat` modulo `2^32`, `size_t` is `Nat` modulo `2^64`.
-/

namespace EyesyOF

/-! ## Machine integers -/

/-- Two's-complement reduction of an integer to the range of a 32-bit `int`. -/
def wrapInt32 (x : Int) : Int := (x + 2 ^ 31) % 2 ^ 32 - 2 ^ 31

/-- Modulus of `unsigned int`. -/
def UINT_MOD : Nat := 2 ^ 32

/-- Modulus of `size_t`. -/
def SIZE_MOD : Nat := 2 ^ 64

/-! ## MIDI status bytes used by `newMidiMessage`

The enumerators come from the ofxMidi addon (`ofxMidiConstants.h`); their values
are the MIDI 1.0 system real-time / system common status bytes. -/

def MIDI_TIME_CLOCK : Int := 0xF8
def MIDI_START : Int := 0xFA
def MIDI_CONTINUE : Int := 0xFB
def MIDI_STOP : Int := 0xFC
def MIDI_SONG_POS_POINTER : Int := 0xF2

/-! ## Data -/

/-- The `vector<lua_Number> midiData(8)` record
`{status, channel, pitch, velocity, control, value, portNum, portName}`. -/
structure MidiData where
  status : Int
  channel : Int
  pitch : Int
  velocity : Int
  control : Int
  value : Int
  portNum : Int
  portName : Int
deriving DecidableEq, Repr

/-- The fields of `ofxMidiMessage` that `newMidiMessage` reads (the raw `bytes`
are only handed on to `midiClock->update`). -/
structure OfxMidiMessage where
  status : Int
  channel : Int
  pitch : Int
  velocity : Int
  control : Int
  value : Int
  portNum : Int
deriving DecidableEq, Repr

/-- An `ofxOscMessage`: its address and its integer arguments. -/
structure OscMessage where
  address : String
  args : List Int
deriving DecidableEq, Repr

/-- The call `m.getArgAsInt32(i)`; a missing argument reads as `0`. -/
def OscMessage.getArgAsInt32 (m : OscMessage) (i : Nat) : Int := m.args.getD i 0

/-- The Lua globals written by `ofApp`. -/
structure LuaGlobals where
  trig : Bool
  knob1 : ℚ
  knob2 : ℚ
  knob3 : ℚ
  knob4 : ℚ
  knob5 : ℚ
  midi_data : Option MidiData
  midi_available : Bool
  midi_enabled : Bool
  midi_beat : Nat
  midi_bar : Nat
  midi_tick : Nat
  midi_new_beat : Bool
  midi_time_numerator : Nat
  midi_time_denominator : Nat
  midi_bpm : ℚ
  midi_beat_trigger : Bool
  midi_bar_trigger : Bool
  midi_transport_playing : Bool
  persist : Bool
deriving DecidableEq, Repr

/-- The state of `ofApp`: member variables, then the `static` locals of
`update` (`frameCounter`, `lastBeat`, `lastBar`, `lastClockTime`,
`transportRunning`) and of `newMidiMessage` (`lastClockTime`). -/
structure App where
  scripts : List String
  currentScript : Nat
  snapCounter : Int
  persistEnabled : Bool
  persistFirstRender : Bool
  osdEnabled : Bool
  midiMessages : List MidiData
  recentMidiNotes : List String
  clockMessageCount : Int
  calculatedBPM : ℚ
  frameCounter : Int
  lastBeat : Nat
  lastBar : Nat
  updateLastClockTime : ℚ
  transportRunning : Bool
  midiLastClockTime : ℚ
  lua : LuaGlobals
deriving DecidableEq, Repr

/-- Lua globals before `ofApp` has written any of them. -/
def LuaGlobals.unset : LuaGlobals :=
  { trig := false, knob1 := 0, knob2 := 0, knob3 := 0, knob4 := 0, knob5 := 0,
    midi_data := none, midi_available := false, midi_enabled := false,
    midi_beat := 0, midi_bar := 0, midi_tick := 0, midi_new_beat := false,
    midi_time_numerator := 0, midi_time_denominator := 0, midi_bpm := 0,
    midi_beat_trigger := false, midi_bar_trigger := false,
    midi_transport_playing := false, persist := false }

/-- The state after `ofApp::ofApp` and `ofApp::setup` (with `setupMidi`), given
the script paths found by the directory listing; the statics hold their
initialisers. -/
def startup (scripts : List String) : App :=
  { scripts := scripts
    currentScript := 0
    snapCounter := 0
    persistEnabled := false
    persistFirstRender := true
    osdEnabled := false
    midiMessages := []
    recentMidiNotes := []
    clockMessageCount := 0
    calculatedBPM := 120
    frameCounter := 0
    lastBeat := 0
    lastBar := 0
    updateLastClockTime := 0
    transportRunning := false
    midiLastClockTime := 0
    lua := LuaGlobals.unset }

/-! ## Script control -/

/-- `ofApp::reloadScript`. -/
def reloadScript (s : App) : App :=
  if s.persistEnabled then { s with persistFirstRender := true } else s

/-- `ofApp::nextScript`. -/
def nextScript (s : App) : App :=
  let s1 := { s with currentScript := (s.currentScript + 1) % SIZE_MOD }
  let s2 :=
    if s1.currentScript > (s1.scripts.length + SIZE_MOD - 1) % SIZE_MOD then
      { s1 with currentScript := 0 }
    else s1
  reloadScript s2

/-- `ofApp::prevScript`. -/
def prevScript (s : App) : App :=
  let s1 :=
    if s.currentScript = 0 then
      { s with currentScript := (s.scripts.length + SIZE_MOD - 1) % SIZE_MOD }
    else
      { s with currentScript := s.currentScript - 1 }
  reloadScript s1

/-! ## The MIDI event queue -/

/-- The record built by the `/midinote` branch. -/
def noteData (pitch velocity : Int) : MidiData :=
  { status := if velocity > 0 then 144 else 128
    channel := 0
    pitch := pitch
    velocity := velocity
    control := 0
    value := 0
    portNum := 129
    portName := 0 }

/-- The record built by the `/midicc` branch. -/
def ccData (control value : Int) : MidiData :=
  { status := 176
    channel := 0
    pitch := 0
    velocity := 0
    control := control
    value := value
    portNum := 129
    portName := 0 }

/-- The record built by `newMidiMessage` from a hardware message. -/
def hardwareData (msg : OfxMidiMessage) : MidiData :=
  { status := msg.status
    channel := msg.channel
    pitch := msg.pitch
    velocity := msg.velocity
    control := msg.control
    value := msg.value
    portNum := msg.portNum
    portName := 0 }

/-! ## Per-frame update -/

/-- What one call of `ofApp::update` reads from outside `ofApp`: the OSC
messages waiting in the receiver, `midiIn.isOpen()`, `midiClock->getBeats()`,
`midiClock->getBpm()` and `ofGetElapsedTimef()`. -/
structure FrameInput where
  messages : List OscMessage
  midiInOpen : Bool
  clockBeats : Nat
  clockBpm : ℚ
  currentTime : ℚ
deriving DecidableEq, Repr

/-- The `/key` branch of the message loop. -/
def keyMessage (m : OscMessage) (s : App) : App :=
  let s := if m.getArgAsInt32 0 = 4 ∧ m.getArgAsInt32 1 > 0 then prevScript s else s
  let s := if m.getArgAsInt32 0 = 5 ∧ m.getArgAsInt32 1 > 0 then nextScript s else s
  let s :=
    if m.getArgAsInt32 0 = 9 ∧ m.getArgAsInt32 1 > 0 then
      { s with snapCounter := wrapInt32 (s.snapCounter + 1) }
    else s
  let s :=
    if m.getArgAsInt32 0 = 10 ∧ m.getArgAsInt32 1 > 0 then
      { s with lua := { s.lua with trig := true } }
    else s
  let s :=
    if m.getArgAsInt32 0 = 3 ∧ m.getArgAsInt32 1 > 0 then
      { s with persistEnabled := !s.persistEnabled, persistFirstRender := true }
    else s
  let s :=
    if m.getArgAsInt32 0 = 1 ∧ m.getArgAsInt32 1 > 0 then
      { s with osdEnabled := !s.osdEnabled }
    else s
  s

/-- The `/knobs` branch of the message loop. -/
def knobsMessage (m : OscMessage) (s : App) : App :=
  { s with lua := { s.lua with
      knob1 := (m.getArgAsInt32 0 : ℚ) / 1023
      knob2 := (m.getArgAsInt32 1 : ℚ) / 1023
      knob3 := (m.getArgAsInt32 2 : ℚ) / 1023
      knob4 := (m.getArgAsInt32 3 : ℚ) / 1023
      knob5 := (m.getArgAsInt32 4 : ℚ) / 1023 } }

/-- The `/midinote` branch of the message loop. -/
def midinoteMessage (m : OscMessage) (s : App) : App :=
  let pitch := m.getArgAsInt32 0
  let velocity := m.getArgAsInt32 1
  let midiData := noteData pitch velocity
  let s := { s with midiMessages := s.midiMessages ++ [midiData] }
  let s :=
    if s.osdEnabled then
      let noteStr := "Note: " ++ toString pitch ++ " Ch:" ++ toString (midiData.channel + 1)
        ++ " Vel:" ++ toString velocity
      let notes := s.recentMidiNotes ++ [noteStr]
      { s with recentMidiNotes := if notes.length > 5 then notes.tail else notes }
    else s
  if s.midiMessages.length > 100 then { s with midiMessages := s.midiMessages.tail } else s

/-- The `/midicc` branch of the message loop. -/
def midiccMessage (m : OscMessage) (s : App) : App :=
  let control := m.getArgAsInt32 0
  let value := m.getArgAsInt32 1
  let midiData := ccData control value
  let s := { s with midiMessages := s.midiMessages ++ [midiData] }
  if s.midiMessages.length > 100 then { s with midiMessages := s.midiMessages.tail } else s

/-- The body of the loop `while (receiver.hasWaitingMessages())` of
`ofApp::update`, for one message `m`. -/
def oscMessage (m : OscMessage) (s : App) : App :=
  let s := if m.address = "/key" then keyMessage m s else s
  let s := if m.address = "/knobs" then knobsMessage m s else s
  let s := if m.address = "/reload" then reloadScript s else s
  let s := if m.address = "/midinote" then midinoteMessage m s else s
  let s := if m.address = "/midicc" then midiccMessage m s else s
  s

/-- The part of `ofApp::update` that hands the oldest queued MIDI event to Lua. -/
def drainMidi (s : App) : App :=
  match s.midiMessages with
  | midiMsg :: rest =>
    { s with
      lua := { s.lua with midi_data := some midiMsg, midi_available := true }
      midiMessages := rest }
  | [] => { s with lua := { s.lua with midi_available := false } }

/-- The part of `ofApp::update` after the queue: clock globals, trigger flags
and transport detection. -/
def clockGlobals (inp : FrameInput) (s : App) : App :=
  let s := { s with lua := { s.lua with midi_enabled := inp.midiInOpen } }
  let totalBeats := inp.clockBeats % UINT_MOD
  let currentBeat := (totalBeats % 4 + 1) % UINT_MOD
  let currentBar := (totalBeats / 4 + 1) % UINT_MOD
  let s := { s with calculatedBPM := inp.clockBpm }
  let s := { s with frameCounter := wrapInt32 (s.frameCounter + 1) }
  let newBeat : Bool := decide (totalBeats ≠ s.lastBeat)
  let newBar : Bool := decide (currentBar ≠ s.lastBar)
  let s := { s with lastBeat := totalBeats, lastBar := currentBar }
  let s := { s with lua := { s.lua with
      midi_beat := currentBeat
      midi_bar := currentBar
      midi_tick := (totalBeats * 6) % UINT_MOD
      midi_new_beat := newBeat
      midi_time_numerator := 4
      midi_time_denominator := 4
      midi_bpm := inp.clockBpm
      midi_beat_trigger := newBeat
      midi_bar_trigger := newBar } }
  let currentTime := inp.currentTime
  let s :=
    if newBeat then
      { s with updateLastClockTime := currentTime, transportRunning := true }
    else if currentTime - s.updateLastClockTime > 2 then
      { s with transportRunning := false }
    else s
  let s := { s with lua := { s.lua with midi_transport_playing := s.transportRunning } }
  { s with lua := { s.lua with persist := s.persistEnabled } }

/-- `ofApp::update`. -/
def update (inp : FrameInput) (s : App) : App :=
  let s := inp.messages.foldl (fun st m => oscMessage m st) s
  let s := drainMidi s
  clockGlobals inp s

/-- `ofApp::draw`. -/
def draw (s : App) : App :=
  let s :=
    if s.persistEnabled then
      if s.persistFirstRender then { s with persistFirstRender := false } else s
    else s
  { s with lua := { s.lua with
      trig := false
      midi_beat_trigger := false
      midi_bar_trigger := false } }

/-! ## Hardware MIDI -/

/-- `ofApp::newMidiMessage`; `now` is what `ofGetElapsedTimef()` returns during
the call. -/
def newMidiMessage (now : ℚ) (msg : OfxMidiMessage) (s : App) : App :=
  let s :=
    if msg.status = MIDI_TIME_CLOCK ∨ msg.status = MIDI_START ∨ msg.status = MIDI_STOP ∨
        msg.status = MIDI_CONTINUE ∨ msg.status = MIDI_SONG_POS_POINTER then
      if msg.status = MIDI_TIME_CLOCK then
        let s := { s with clockMessageCount := wrapInt32 (s.clockMessageCount + 1) }
        let currentTime := now
        if Int.tmod s.clockMessageCount 24 = 0 ∧ s.midiLastClockTime > 0 then
          let timeDiff := currentTime - s.midiLastClockTime
          let s := if timeDiff > 0 then { s with calculatedBPM := 60 / timeDiff } else s
          { s with midiLastClockTime := currentTime }
        else if s.midiLastClockTime = 0 then
          { s with midiLastClockTime := currentTime }
        else s
      else s
    else s
  let midiData := hardwareData msg
  let s := { s with midiMessages := s.midiMessages ++ [midiData] }
  if s.midiMessages.length > 100 then { s with midiMessages := s.midiMessages.tail } else s

/-! ## Audio input

The audio callback works on its own variables. Its arithmetic is written over
any field `α`, with the square root function as a parameter, so that it can be
run on rationals and reasoned about on the reals. -/

/-- The `ofSoundBuffer` handed to `audioIn`: interleaved samples of the two
input channels. -/
structure SoundBuffer (α : Type) where
  samples : List α

/-- The call `input.getNumFrames()`: samples per channel, for two channels. -/
def SoundBuffer.getNumFrames {α : Type} (input : SoundBuffer α) : Nat :=
  input.samples.length / 2

/-- The read `input[i]`. -/
def SoundBuffer.get {α : Type} [Zero α] (input : SoundBuffer α) (i : Nat) : α :=
  input.samples.getD i 0

/-- The variables of `ofApp` that `audioIn` uses. -/
structure Audio (α : Type) where
  left : List α
  right : List α
  audioLevel : α
  bufferCounter : Int

/-- The audio variables after `ofApp::ofApp` and `ofApp::setup`: both buffers
hold `bufferSize = 256` zeros. -/
def audioSetup {α : Type} [Zero α] : Audio α :=
  { left := List.replicate 256 0
    right := List.replicate 256 0
    audioLevel := 0
    bufferCounter := 0 }

/-- `ofApp::audioIn`. A write `left[i] = v` is `List.set`, which leaves the
list alone when `i` is out of range. -/
def audioIn {α : Type} [Field α] (sqrt : α → α) (input : SoundBuffer α) (a : Audio α) :
    Audio α :=
  let a := (List.range input.getNumFrames).foldl (fun a i =>
    let a := { a with left := a.left.set i (input.get (i * 2) * 0.5) }
    { a with right := a.right.set i (input.get (i * 2 + 1) * 0.5) }) a
  let sum := (List.range input.getNumFrames).foldl (fun sum i =>
    let sample := (a.left.getD i 0 + a.right.getD i 0) * 0.5
    sum + sample * sample) 0
  let a := { a with audioLevel := sqrt (sum / (input.getNumFrames : α)) }
  { a with bufferCounter := wrapInt32 (a.bufferCounter + 1) }

/-! ## Drivers used to state the properties -/

/-- One arrival at the MIDI event queue, by any of its three producers. -/
inductive Producer where
  | midinote (pitch velocity : Int)
  | midicc (control value : Int)
  | hardware (now : ℚ) (msg : OfxMidiMessage)
deriving DecidableEq, Repr

/-- The code path a producer runs. -/
def Producer.run : Producer → App → App
  | .midinote pitch velocity, s => oscMessage { address := "/midinote", args := [pitch, velocity] } s
  | .midicc control value, s => oscMessage { address := "/midicc", args := [control, value] } s
  | .hardware now msg, s => newMidiMessage now msg s

/-- The event a producer hands to the queue. -/
def Producer.event : Producer → MidiData
  | .midinote pitch velocity => noteData pitch velocity
  | .midicc control value => ccData control value
  | .hardware _ msg => hardwareData msg

/-- Run a sequence of producers, oldest first. -/
def runProducers (ps : List Producer) (s : App) : App :=
  ps.foldl (fun st p => p.run st) s

/-- One call into `ofApp`; `reloadScript`, `nextScript` and `prevScript` are
also reached directly from `keyPressed`. -/
inductive Call where
  | update (inp : FrameInput)
  | draw
  | newMidiMessage (now : ℚ) (msg : OfxMidiMessage)
  | reloadScript
  | nextScript
  | prevScript
deriving DecidableEq, Repr

/-- The function a call runs. -/
def Call.run : Call → App → App
  | .update inp, s => EyesyOF.update inp s
  | .draw, s => EyesyOF.draw s
  | .newMidiMessage now msg, s => EyesyOF.newMidiMessage now msg s
  | .reloadScript, s => EyesyOF.reloadScript s
  | .nextScript, s => EyesyOF.nextScript s
  | .prevScript, s => EyesyOF.prevScript s

/-- Run a sequence of calls, first call first. -/
def runCalls (cs : List Call) (s : App) : App :=
  cs.foldl (fun st c => c.run st) s

/-- The OSC message is a persistence toggle (`/key 3` with a positive value). -/
def isPersistToggle (m : OscMessage) : Bool :=
  decide (m.address = "/key" ∧ m.getArgAsInt32 0 = 3 ∧ m.getArgAsInt32 1 > 0)

/-- The OSC message switches or reloads the program (`/key 4`, `/key 5` with a
positive value, or `/reload`). -/
def isProgramSwitch (m : OscMessage) : Bool :=
  decide ((m.address = "/key" ∧ (m.getArgAsInt32 0 = 4 ∨ m.getArgAsInt32 0 = 5) ∧
      m.getArgAsInt32 1 > 0) ∨ m.address = "/reload")

/-- The call contains neither a persistence toggle nor a program switch. -/
def Call.quiet : Call → Bool
  | .update inp => inp.messages.all (fun m => !isPersistToggle m && !isProgramSwitch m)
  | .draw => true
  | .newMidiMessage _ _ => true
  | .reloadScript => false
  | .nextScript => false
  | .prevScript => false

/-- Feed a sequence of hardware messages, each with the elapsed time at which
`newMidiMessage` handles it, oldest first. -/
def runMidi (evs : List (ℚ × OfxMidiMessage)) (s : App) : App :=
  evs.foldl (fun st e => newMidiMessage e.1 e.2 st) s

/-- Number of messages of the sequence whose status is `MIDI_TIME_CLOCK`. -/
def clockCount (evs : List (ℚ × OfxMidiMessage)) : Nat :=
  evs.countP (fun e => decide (e.2.status = MIDI_TIME_CLOCK))

/-- A hardware message with the given status byte and no data. -/
def statusMessage (status : Int) : OfxMidiMessage :=
  { status := status, channel := 0, pitch := 0, velocity := 0, control := 0, value := 0,
    portNum := 1 }

/-- The first `n` Clock pulses of an evenly spaced train: pulse `k` (from 0)
arrives at `t0 + k * (T / 24)`, so that 24 pulse intervals last `T`. -/
def evenPulses (t0 T : ℚ) (n : Nat) : List (ℚ × OfxMidiMessage) :=
  (List.range n).map (fun (k : Nat) => (t0 + (k : ℚ) * (T / 24), statusMessage MIDI_TIME_CLOCK))

/-- The elapsed-time readings a call makes are not negative. -/
def Call.timeOk : Call → Bool
  | .update inp => decide (0 ≤ inp.currentTime)
  | .newMidiMessage now _ => decide (0 ≤ now)
  | _ => true

/-- The even pulse train as a sequence of `newMidiMessage` calls. -/
def pulseCalls (t0 T : ℚ) (n : Nat) : List Call :=
  (evenPulses t0 T n).map (fun e => Call.newMidiMessage e.1 e.2)

/-- A run of consecutive `update` calls, first frame first. -/
def runUpdates (inps : List FrameInput) (s : App) : App :=
  inps.foldl (fun st inp => update inp st) s

/-- The OSC messages of the frame queue no MIDI event: none of them is
addressed `/midinote` or `/midicc`. Any other OSC traffic is allowed. -/
def FrameInput.noArrivals (inp : FrameInput) : Bool :=
  inp.messages.all (fun m => decide (m.address ≠ "/midinote") && decide (m.address ≠ "/midicc"))

/-! ## Queue bound (C1) -/

theorem midinote_queue (m : OscMessage) (s : App) :
    (midinoteMessage m s).midiMessages =
      if (s.midiMessages ++ [noteData (m.getArgAsInt32 0) (m.getArgAsInt32 1)]).length > 100 then
        (s.midiMessages ++ [noteData (m.getArgAsInt32 0) (m.getArgAsInt32 1)]).tail
      else s.midiMessages ++ [noteData (m.getArgAsInt32 0) (m.getArgAsInt32 1)] := by
  unfold midinoteMessage
  by_cases h1 : s.osdEnabled = true <;> by_cases h2 : 100 < s.midiMessages.length + 1 <;>
    simp [h1, h2]

theorem midicc_queue (m : OscMessage) (s : App) :
    (midiccMessage m s).midiMessages =
      if (s.midiMessages ++ [ccData (m.getArgAsInt32 0) (m.getArgAsInt32 1)]).length > 100 then
        (s.midiMessages ++ [ccData (m.getArgAsInt32 0) (m.getArgAsInt32 1)]).tail
      else s.midiMessages ++ [ccData (m.getArgAsInt32 0) (m.getArgAsInt32 1)] := by
  unfold midiccMessage
  by_cases h2 : 100 < s.midiMessages.length + 1 <;> simp [h2]

theorem newMidiMessage_queue (now : ℚ) (msg : OfxMidiMessage) (s : App) :
    (newMidiMessage now msg s).midiMessages =
      if (s.midiMessages ++ [hardwareData msg]).length > 100 then
        (s.midiMessages ++ [hardwareData msg]).tail
      else s.midiMessages ++ [hardwareData msg] := by
  unfold newMidiMessage
  simp only []
  split_ifs <;> simp_all

theorem producer_queue (p : Producer) (s : App) :
    (p.run s).midiMessages =
      if (s.midiMessages ++ [p.event]).length > 100 then (s.midiMessages ++ [p.event]).tail
      else s.midiMessages ++ [p.event] := by
  cases p with
  | midinote pitch velocity =>
    simp only [Producer.run, Producer.event, oscMessage]
    simp [midinote_queue, OscMessage.getArgAsInt32]
  | midicc control value =>
    simp only [Producer.run, Producer.event, oscMessage]
    simp [midicc_queue, OscMessage.getArgAsInt32]
  | hardware now msg =>
    simp only [Producer.run, Producer.event]
    exact newMidiMessage_queue now msg s

theorem drop_push_step (l : List MidiData) (e : MidiData) :
    (if (l.drop (l.length - 100) ++ [e]).length > 100 then (l.drop (l.length - 100) ++ [e]).tail
      else l.drop (l.length - 100) ++ [e]) =
    (l ++ [e]).drop ((l ++ [e]).length - 100) := by
  by_cases h : l.length < 100
  · have h0 : l.length - 100 = 0 := by omega
    have h1 : (l ++ [e]).length - 100 = 0 := by simp; omega
    rw [h1, h0]
    simp
    omega
  · have hlen : (l.drop (l.length - 100) ++ [e]).length = 101 := by simp; omega
    have h1 : (l ++ [e]).length - 100 = (l.length - 100) + 1 := by simp; omega
    rw [if_pos (by omega), h1, ← List.drop_drop, List.drop_one]
    congr 1
    rw [List.drop_append_of_le_length (by omega)]

theorem runProducers_queue (ps : List Producer) :
    ∀ (l : List MidiData) (s : App), s.midiMessages = l.drop (l.length - 100) →
      (runProducers ps s).midiMessages =
        (l ++ ps.map Producer.event).drop ((l ++ ps.map Producer.event).length - 100) := by
  induction ps with
  | nil => intro l s h; simpa [runProducers] using h
  | cons p ps ih =>
    intro l s h
    have hstep : (p.run s).midiMessages = (l ++ [p.event]).drop ((l ++ [p.event]).length - 100) := by
      rw [producer_queue, h]
      exact drop_push_step l p.event
    have := ih (l ++ [p.event]) (p.run s) hstep
    simpa [runProducers] using this

/-- C1: from an empty MIDI event queue, after every push of a sequence of
arrivals from the three producers (`/midinote`, `/midicc`, hardware
`newMidiMessage`) the queue holds at most 100 events, and at the end it holds
exactly the last `min N 100` pushed events in arrival order; 150 pushes leave the
last 100, 101 pushes leave all but the first. -/
theorem queue_keeps_last_hundred (s : App) (hempty : s.midiMessages = [])
    (ps : List Producer) :
    (∀ k, (runProducers (ps.take k) s).midiMessages.length ≤ 100) ∧
    (runProducers ps s).midiMessages.length = min ps.length 100 ∧
    (runProducers ps s).midiMessages =
      (ps.map Producer.event).drop (ps.length - min ps.length 100) ∧
    (ps.length = 150 → (runProducers ps s).midiMessages = (ps.map Producer.event).drop 50) ∧
    (ps.length = 101 → (runProducers ps s).midiMessages = (ps.map Producer.event).tail) := by
  have key : ∀ qs : List Producer, (runProducers qs s).midiMessages =
      (qs.map Producer.event).drop (qs.length - 100) := by
    intro qs
    have := runProducers_queue qs [] s (by simpa using hempty)
    simpa using this
  have hmin : ps.length - min ps.length 100 = ps.length - 100 := by omega
  refine ⟨?_, ?_, ?_, ?_, ?_⟩
  · intro k
    rw [key]
    simp
    omega
  · rw [key]
    simp
    omega
  · rw [key, hmin]
  · intro h
    rw [key, h]
  · intro h
    rw [key, h, ← List.drop_one]

/-- C1 at a concrete input: 150 note-on arrivals into the startup queue. -/
theorem queue_keeps_last_hundred_witness :
    (startup ["a/main.lua"]).midiMessages = [] ∧
    (runProducers ((List.range 150).map (fun i : Nat => Producer.midinote (Int.ofNat i) 64))
        (startup ["a/main.lua"])).midiMessages =
      (((List.range 150).map (fun i : Nat => Producer.midinote (Int.ofNat i) 64)).map Producer.event).drop 50 :=
  ⟨rfl, (queue_keeps_last_hundred (startup ["a/main.lua"]) rfl
    ((List.range 150).map (fun i : Nat => Producer.midinote (Int.ofNat i) 64))).2.2.2.1
      (by rw [List.length_map, List.length_range])⟩

/-! ## Script index arithmetic (C2, C3) -/

@[simp] theorem reloadScript_currentScript (s : App) :
    (reloadScript s).currentScript = s.currentScript := by
  unfold reloadScript; split <;> rfl

@[simp] theorem reloadScript_scripts (s : App) : (reloadScript s).scripts = s.scripts := by
  unfold reloadScript; split <;> rfl

@[simp] theorem reloadScript_persistEnabled (s : App) :
    (reloadScript s).persistEnabled = s.persistEnabled := by
  unfold reloadScript; split <;> rfl

@[simp] theorem nextScript_scripts (s : App) : (nextScript s).scripts = s.scripts := by
  unfold nextScript
  simp only [reloadScript_scripts]
  split <;> rfl

@[simp] theorem prevScript_scripts (s : App) : (prevScript s).scripts = s.scripts := by
  unfold prevScript
  simp only [reloadScript_scripts]
  split <;> rfl

theorem nextScript_index (s : App) (hsz : s.scripts.length < SIZE_MOD)
    (hi : s.currentScript < s.scripts.length) :
    (nextScript s).currentScript = (s.currentScript + 1) % s.scripts.length := by
  unfold nextScript
  simp only [reloadScript_currentScript]
  unfold SIZE_MOD at *
  have h1 : (s.currentScript + 1) % 2 ^ 64 = s.currentScript + 1 := Nat.mod_eq_of_lt (by omega)
  have h2 : (s.scripts.length + 2 ^ 64 - 1) % 2 ^ 64 = s.scripts.length - 1 := by omega
  rw [h1, h2]
  by_cases hlast : s.currentScript + 1 = s.scripts.length
  · rw [if_pos (show s.currentScript + 1 > s.scripts.length - 1 by omega)]
    simp [hlast]
  · rw [if_neg (show ¬ s.currentScript + 1 > s.scripts.length - 1 by omega)]
    show s.currentScript + 1 = _
    exact (Nat.mod_eq_of_lt (by omega)).symm

theorem prevScript_index (s : App) (hsz : s.scripts.length < SIZE_MOD)
    (hi : s.currentScript < s.scripts.length) :
    (prevScript s).currentScript = (s.currentScript + s.scripts.length - 1) % s.scripts.length := by
  unfold prevScript
  simp only [reloadScript_currentScript]
  unfold SIZE_MOD at *
  by_cases h0 : s.currentScript = 0
  · rw [if_pos h0]
    have h2 : (s.scripts.length + 2 ^ 64 - 1) % 2 ^ 64 = s.scripts.length - 1 := by omega
    simp only [h2, h0, Nat.zero_add]
    exact (Nat.mod_eq_of_lt (by omega)).symm
  · rw [if_neg h0]
    show s.currentScript - 1 = _
    have h3 : s.currentScript + s.scripts.length - 1 = (s.currentScript - 1) + s.scripts.length := by
      omega
    rw [h3, Nat.add_mod_right]
    exact (Nat.mod_eq_of_lt (by omega)).symm

/-- C2: for a script list of length `n` (a `size_t`, so below `2^64`) and a
valid index `i < n` (hence `n` is non-empty), `nextScript` sets the index to
`(i + 1) mod n` and `prevScript` sets it to `(i - 1 + n) mod n` (computed over
the integers); both results are valid indices, Next from `n - 1` gives `0` and
Prev from `0` gives `n - 1`. -/
theorem next_prev_wraparound (s : App) (hsz : s.scripts.length < SIZE_MOD)
    (hi : s.currentScript < s.scripts.length) :
    (nextScript s).currentScript = (s.currentScript + 1) % s.scripts.length ∧
    ((prevScript s).currentScript : Int) =
      ((s.currentScript : Int) - 1 + (s.scripts.length : Int)) % (s.scripts.length : Int) ∧
    (nextScript s).currentScript < (nextScript s).scripts.length ∧
    (prevScript s).currentScript < (prevScript s).scripts.length ∧
    (s.currentScript = s.scripts.length - 1 → (nextScript s).currentScript = 0) ∧
    (s.currentScript = 0 → (prevScript s).currentScript = s.scripts.length - 1) := by
  have hn := nextScript_index s hsz hi
  have hp := prevScript_index s hsz hi
  have hpos : 0 < s.scripts.length := by omega
  refine ⟨hn, ?_, ?_, ?_, ?_, ?_⟩
  · rw [hp]
    have : ((s.currentScript : Int) - 1 + (s.scripts.length : Int)) =
        ((s.currentScript + s.scripts.length - 1 : Nat) : Int) := by omega
    rw [this]
    exact Int.natCast_mod _ _
  · rw [hn, nextScript_scripts]
    exact Nat.mod_lt _ hpos
  · rw [hp, prevScript_scripts]
    exact Nat.mod_lt _ hpos
  · intro h
    rw [hn, h, Nat.sub_add_cancel hpos, Nat.mod_self]
  · intro h
    rw [hp, h, Nat.zero_add]
    exact Nat.mod_eq_of_lt (by omega)

/-- C2 on a three-script list: Next from index 2 gives 0, Prev from index 0
gives 2. -/
theorem next_prev_wraparound_witness :
    (nextScript { startup ["a", "b", "c"] with currentScript := 2 }).currentScript = 0 ∧
    (prevScript (startup ["a", "b", "c"])).currentScript = 2 :=
  ⟨(next_prev_wraparound { startup ["a", "b", "c"] with currentScript := 2 }
      (by decide) (by decide)).2.2.2.2.1 rfl,
   (next_prev_wraparound (startup ["a", "b", "c"]) (by decide) (by decide)).2.2.2.2.2 rfl⟩

theorem nextScript_iterate (k : Nat) :
    ∀ s : App, s.scripts.length < SIZE_MOD → s.currentScript < s.scripts.length →
      (nextScript^[k] s).scripts = s.scripts ∧
      (nextScript^[k] s).currentScript = (s.currentScript + k) % s.scripts.length := by
  induction k with
  | zero =>
    intro s _ hi
    exact ⟨rfl, (Nat.mod_eq_of_lt hi).symm⟩
  | succ k ih =>
    intro s hsz hi
    have hnext := nextScript_index s hsz hi
    have hlt : (nextScript s).currentScript < (nextScript s).scripts.length := by
      rw [hnext, nextScript_scripts]
      exact Nat.mod_lt _ (by omega)
    have := ih (nextScript s) (by simpa using hsz) hlt
    rw [Function.iterate_succ_apply]
    refine ⟨by simpa using this.1, ?_⟩
    rw [this.2, hnext, nextScript_scripts, Nat.mod_add_mod]
    congr 1
    omega

/-- C3: for a script list of length `n` and a valid starting index, `n`
applications of `nextScript` bring the current index back to where it started
(and leave the list unchanged). -/
theorem next_n_times_returns (s : App) (hsz : s.scripts.length < SIZE_MOD)
    (hi : s.currentScript < s.scripts.length) :
    (nextScript^[s.scripts.length] s).currentScript = s.currentScript ∧
    (nextScript^[s.scripts.length] s).scripts = s.scripts := by
  have h := nextScript_iterate s.scripts.length s hsz hi
  refine ⟨?_, h.1⟩
  rw [h.2, Nat.add_mod_right]
  exact Nat.mod_eq_of_lt hi

/-- C3 on the three-script list of the spec: three Nexts from index 1 return to
index 1. -/
theorem next_n_times_returns_witness :
    (nextScript (nextScript (nextScript
      { startup ["a", "b", "c"] with currentScript := 1 }))).currentScript = 1 :=
  (next_n_times_returns { startup ["a", "b", "c"] with currentScript := 1 }
    (by decide) (by decide)).1

/-! ## Persistence first-render flag (C4, C5) -/

theorem reloadScript_firstRender (s : App) :
    (reloadScript s).persistFirstRender = (s.persistEnabled || s.persistFirstRender) := by
  unfold reloadScript
  cases h : s.persistEnabled <;> simp

theorem nextScript_firstRender (s : App) :
    (nextScript s).persistFirstRender = (s.persistEnabled || s.persistFirstRender) := by
  unfold nextScript
  rw [reloadScript_firstRender]
  dsimp only
  split <;> rfl

theorem prevScript_firstRender (s : App) :
    (prevScript s).persistFirstRender = (s.persistEnabled || s.persistFirstRender) := by
  unfold prevScript
  rw [reloadScript_firstRender]
  split <;> rfl

@[simp] theorem nextScript_persistEnabled (s : App) :
    (nextScript s).persistEnabled = s.persistEnabled := by
  unfold nextScript
  rw [reloadScript_persistEnabled]
  dsimp only
  split <;> rfl

@[simp] theorem prevScript_persistEnabled (s : App) :
    (prevScript s).persistEnabled = s.persistEnabled := by
  unfold prevScript
  rw [reloadScript_persistEnabled]
  split <;> rfl

theorem keyMessage_toggle (m : OscMessage) (s : App)
    (h3 : m.getArgAsInt32 0 = 3) (hpos : m.getArgAsInt32 1 > 0) :
    (keyMessage m s).persistEnabled = !s.persistEnabled ∧
    (keyMessage m s).persistFirstRender = true := by
  unfold keyMessage
  simp [h3, hpos]

theorem keyMessage_quiet (m : OscMessage) (s : App)
    (h3 : ¬ (m.getArgAsInt32 0 = 3 ∧ m.getArgAsInt32 1 > 0))
    (h4 : ¬ (m.getArgAsInt32 0 = 4 ∧ m.getArgAsInt32 1 > 0))
    (h5 : ¬ (m.getArgAsInt32 0 = 5 ∧ m.getArgAsInt32 1 > 0)) :
    (keyMessage m s).persistFirstRender = s.persistFirstRender := by
  unfold keyMessage
  simp only [h3, h4, h5, if_false]
  split_ifs <;> rfl

@[simp] theorem knobsMessage_firstRender (m : OscMessage) (s : App) :
    (knobsMessage m s).persistFirstRender = s.persistFirstRender := rfl

@[simp] theorem midinoteMessage_firstRender (m : OscMessage) (s : App) :
    (midinoteMessage m s).persistFirstRender = s.persistFirstRender := by
  unfold midinoteMessage
  dsimp only
  split_ifs <;> rfl

@[simp] theorem midiccMessage_firstRender (m : OscMessage) (s : App) :
    (midiccMessage m s).persistFirstRender = s.persistFirstRender := by
  unfold midiccMessage
  dsimp only
  split_ifs <;> rfl

theorem oscMessage_quiet (m : OscMessage) (s : App)
    (ht : isPersistToggle m = false) (hs : isProgramSwitch m = false) :
    (oscMessage m s).persistFirstRender = s.persistFirstRender := by
  simp only [isPersistToggle, isProgramSwitch, decide_eq_false_iff_not] at ht hs
  unfold oscMessage
  by_cases hk : m.address = "/key"
  · have h3 : ¬ (m.getArgAsInt32 0 = 3 ∧ m.getArgAsInt32 1 > 0) := fun h => ht ⟨hk, h⟩
    have h4 : ¬ (m.getArgAsInt32 0 = 4 ∧ m.getArgAsInt32 1 > 0) :=
      fun h => hs (Or.inl ⟨hk, Or.inl h.1, h.2⟩)
    have h5 : ¬ (m.getArgAsInt32 0 = 5 ∧ m.getArgAsInt32 1 > 0) :=
      fun h => hs (Or.inl ⟨hk, Or.inr h.1, h.2⟩)
    simp [hk, keyMessage_quiet m s h3 h4 h5]
  · have hr : m.address ≠ "/reload" := fun h => hs (Or.inr h)
    simp only [hk, hr, if_false]
    split_ifs <;> simp

@[simp] theorem drainMidi_firstRender (s : App) :
    (drainMidi s).persistFirstRender = s.persistFirstRender := by
  unfold drainMidi
  split <;> rfl

@[simp] theorem clockGlobals_firstRender (inp : FrameInput) (s : App) :
    (clockGlobals inp s).persistFirstRender = s.persistFirstRender := by
  unfold clockGlobals
  dsimp only
  split_ifs <;> rfl

@[simp] theorem newMidiMessage_firstRender (now : ℚ) (msg : OfxMidiMessage) (s : App) :
    (newMidiMessage now msg s).persistFirstRender = s.persistFirstRender := by
  unfold newMidiMessage
  dsimp only
  split_ifs <;> rfl

theorem draw_firstRender_false (s : App) (h : s.persistFirstRender = false) :
    (draw s).persistFirstRender = false := by
  unfold draw
  dsimp only
  split_ifs <;> simp_all

theorem draw_enabled_firstRender (s : App) (h : s.persistEnabled = true) :
    (draw s).persistFirstRender = false := by
  unfold draw
  dsimp only
  split_ifs <;> simp_all

theorem foldl_oscMessage_quiet (ms : List OscMessage) :
    ∀ s : App, (ms.all (fun m => !isPersistToggle m && !isProgramSwitch m)) = true →
      (ms.foldl (fun st m => oscMessage m st) s).persistFirstRender = s.persistFirstRender := by
  induction ms with
  | nil => intro s _; rfl
  | cons m ms ih =>
    intro s h
    simp only [List.all_cons, Bool.and_eq_true, Bool.not_eq_true'] at h
    rw [List.foldl_cons, ih (oscMessage m s) h.2, oscMessage_quiet m s h.1.1 h.1.2]

theorem quiet_call_firstRender (c : Call) (s : App) (hq : c.quiet = true)
    (h : s.persistFirstRender = false) : (c.run s).persistFirstRender = false := by
  cases c with
  | update inp =>
    simp only [Call.run, update, clockGlobals_firstRender, drainMidi_firstRender]
    rw [foldl_oscMessage_quiet inp.messages s hq, h]
  | draw => exact draw_firstRender_false s h
  | newMidiMessage now msg => simpa [Call.run] using h
  | reloadScript => simp [Call.quiet] at hq
  | nextScript => simp [Call.quiet] at hq
  | prevScript => simp [Call.quiet] at hq

theorem quiet_calls_firstRender (cs : List Call) :
    ∀ s : App, (∀ c ∈ cs, c.quiet = true) → s.persistFirstRender = false →
      (runCalls cs s).persistFirstRender = false := by
  induction cs with
  | nil => intro s _ h; exact h
  | cons c cs ih =>
    intro s hq h
    exact ih (c.run s) (fun d hd => hq d (List.mem_cons_of_mem _ hd))
      (quiet_call_firstRender c s (hq c (List.mem_cons_self _ _)) h)

theorem oscMessage_toggle (m : OscMessage) (s : App) (ht : isPersistToggle m = true) :
    oscMessage m s = { s with persistEnabled := !s.persistEnabled, persistFirstRender := true } := by
  simp only [isPersistToggle, decide_eq_true_eq] at ht
  obtain ⟨hk, h3, hpos⟩ := ht
  unfold oscMessage keyMessage
  simp [hk, h3, hpos]

theorem oscMessage_switch_firstRender (m : OscMessage) (s : App)
    (hs : isProgramSwitch m = true) (he : s.persistEnabled = true) :
    (oscMessage m s).persistFirstRender = true := by
  simp only [isProgramSwitch, decide_eq_true_eq] at hs
  unfold oscMessage
  rcases hs with ⟨hk, h45, hpos⟩ | hr
  · unfold keyMessage
    rcases h45 with h4 | h5
    · simp [hk, h4, hpos, prevScript_firstRender, he]
    · simp [hk, h5, hpos, nextScript_firstRender, he]
  · simp [hr, reloadScript_firstRender, he]

/-- C4: a persistence toggle (`/key 3`) that takes `persistEnabled` from false to
true leaves `persistFirstRender` true; so does every program switch
(`reloadScript`, `nextScript`, `prevScript`, also when reached through `/reload`,
`/key 4`, `/key 5`) performed while `persistEnabled` is true; a draw performed
while persistence is enabled leaves the flag false, and it stays false across
every further sequence of calls (draws, updates, hardware MIDI) that contains no
toggle and no program switch. -/
theorem persist_first_render_flag (s : App) (m : OscMessage) (cs : List Call)
    (hquiet : ∀ c ∈ cs, c.quiet = true) :
    (isPersistToggle m = true → s.persistEnabled = false →
      (oscMessage m s).persistEnabled = true ∧ (oscMessage m s).persistFirstRender = true) ∧
    (s.persistEnabled = true →
      (reloadScript s).persistFirstRender = true ∧ (nextScript s).persistFirstRender = true ∧
      (prevScript s).persistFirstRender = true) ∧
    (s.persistEnabled = true → isProgramSwitch m = true →
      (oscMessage m s).persistFirstRender = true) ∧
    (s.persistEnabled = true →
      (draw s).persistFirstRender = false ∧ (runCalls cs (draw s)).persistFirstRender = false) := by
  refine ⟨?_, ?_, ?_, ?_⟩
  · intro ht he
    rw [oscMessage_toggle m s ht]
    simp [he]
  · intro he
    rw [reloadScript_firstRender, nextScript_firstRender, prevScript_firstRender, he]
    simp
  · intro he hs
    exact oscMessage_switch_firstRender m s hs he
  · intro he
    have hd := draw_enabled_firstRender s he
    exact ⟨hd, quiet_calls_firstRender cs (draw s) hquiet hd⟩

/-- C4 at a concrete input: persistence enabled, then a draw followed by an
update without OSC messages and two more draws; the flag is false at the end. -/
theorem persist_first_render_flag_witness :
    (∀ c ∈ [Call.update ⟨[], false, 0, 120, 0⟩, Call.draw, Call.draw], c.quiet = true) ∧
    (runCalls [Call.update ⟨[], false, 0, 120, 0⟩, Call.draw, Call.draw]
      (draw { startup ["a/main.lua"] with persistEnabled := true })).persistFirstRender = false :=
  ⟨by decide,
   ((persist_first_render_flag { startup ["a/main.lua"] with persistEnabled := true }
      ⟨"/key", [3, 1]⟩ [Call.update ⟨[], false, 0, 120, 0⟩, Call.draw, Call.draw]
      (by decide)).2.2.2 rfl).2⟩

/-- C5 fails as stated: from startup, after toggle on, draw, toggle off, the
flag is true (not false) on entry to the second draw, because every toggle sets
it. -/
theorem toggle_sequence_counterexample :
    ¬ ((oscMessage ⟨"/key", [3, 1]⟩ (startup ["a/main.lua"])).persistFirstRender = true ∧
       (oscMessage ⟨"/key", [3, 1]⟩ (draw (oscMessage ⟨"/key", [3, 1]⟩
          (startup ["a/main.lua"])))).persistFirstRender = false ∧
       (oscMessage ⟨"/key", [3, 1]⟩ (draw (oscMessage ⟨"/key", [3, 1]⟩ (draw
          (oscMessage ⟨"/key", [3, 1]⟩ (startup ["a/main.lua"])))))).persistFirstRender = true) := by
  intro h
  have h2 := h.2.1
  rw [oscMessage_toggle _ _ (by decide)] at h2
  simp at h2

/-- C5 as amended: from startup, in the sequence toggle on, draw, toggle off,
draw, toggle on, draw, the first-render flag is true on entry to the first and
third draw and false on exit from each of them; on entry to the second draw the
flag is true as well (the toggle off set it) while persistence is disabled, and
that draw leaves the flag as it is. -/
theorem toggle_sequence_flags (scripts : List String) (m : OscMessage)
    (ht : isPersistToggle m = true) :
    (oscMessage m (startup scripts)).persistFirstRender = true ∧
    (oscMessage m (startup scripts)).persistEnabled = true ∧
    (draw (oscMessage m (startup scripts))).persistFirstRender = false ∧
    (oscMessage m (draw (oscMessage m (startup scripts)))).persistFirstRender = true ∧
    (oscMessage m (draw (oscMessage m (startup scripts)))).persistEnabled = false ∧
    (draw (oscMessage m (draw (oscMessage m (startup scripts))))).persistFirstRender = true ∧
    (oscMessage m (draw (oscMessage m (draw
      (oscMessage m (startup scripts)))))).persistFirstRender = true ∧
    (oscMessage m (draw (oscMessage m (draw
      (oscMessage m (startup scripts)))))).persistEnabled = true ∧
    (draw (oscMessage m (draw (oscMessage m (draw
      (oscMessage m (startup scripts))))))).persistFirstRender = false := by
  simp [oscMessage_toggle _ _ ht, draw, startup]

/-- C5 as amended, at the `/key 3 1` message and one script. -/
theorem toggle_sequence_flags_witness :
    isPersistToggle ⟨"/key", [3, 1]⟩ = true ∧
    (oscMessage ⟨"/key", [3, 1]⟩ (draw (oscMessage ⟨"/key", [3, 1]⟩
      (startup ["a/main.lua"])))).persistFirstRender = true :=
  ⟨by decide, (toggle_sequence_flags ["a/main.lua"] ⟨"/key", [3, 1]⟩ (by decide)).2.2.2.1⟩

/-! ## Clock pulse counter (C6) -/

theorem newMidiMessage_count (now : ℚ) (msg : OfxMidiMessage) (s : App) :
    (newMidiMessage now msg s).clockMessageCount =
      if msg.status = MIDI_TIME_CLOCK then wrapInt32 (s.clockMessageCount + 1)
      else s.clockMessageCount := by
  unfold newMidiMessage
  dsimp only
  split_ifs <;> simp_all

theorem wrapInt32_of_range (x : Int) (h0 : 0 ≤ x) (h1 : x < 2 ^ 31) : wrapInt32 x = x := by
  unfold wrapInt32
  omega

theorem wrapInt32_add_left (a b : Int) : wrapInt32 (wrapInt32 a + b) = wrapInt32 (a + b) := by
  unfold wrapInt32
  omega

theorem wrapInt32_idem (a : Int) : wrapInt32 (wrapInt32 a) = wrapInt32 a := by
  unfold wrapInt32
  omega

theorem runMidi_count (evs : List (ℚ × OfxMidiMessage)) :
    ∀ s : App, wrapInt32 s.clockMessageCount = s.clockMessageCount →
      (runMidi evs s).clockMessageCount = wrapInt32 (s.clockMessageCount + clockCount evs) := by
  induction evs with
  | nil => intro s h; simpa [runMidi, clockCount] using h.symm
  | cons e evs ih =>
    intro s _
    have hstep := newMidiMessage_count e.1 e.2 s
    by_cases hc : e.2.status = MIDI_TIME_CLOCK
    · have hcc : clockCount (e :: evs) = clockCount evs + 1 := by
        simp [clockCount, List.countP_cons, hc]
      rw [if_pos hc] at hstep
      have := ih (newMidiMessage e.1 e.2 s) (by rw [hstep, wrapInt32_idem])
      simp only [runMidi, List.foldl_cons] at this ⊢
      rw [this, hstep, wrapInt32_add_left, hcc]
      congr 1
      push_cast
      ring
    · have hcc : clockCount (e :: evs) = clockCount evs := by
        simp [clockCount, List.countP_cons, hc]
      rw [if_neg hc] at hstep
      have := ih (newMidiMessage e.1 e.2 s) (by rw [hstep]; assumption)
      simp only [runMidi, List.foldl_cons] at this ⊢
      rw [this, hstep, hcc]

/-- C6: from the startup state, after any sequence of hardware MIDI messages,
`clockMessageCount` is the number of messages with status `MIDI_TIME_CLOCK`, as
held by the 32-bit `int` counter; as long as that number is below `2^31` the
counter equals it exactly. A message with any other status (Start, Stop,
Continue, Song Position Pointer, or anything else) leaves the counter
unchanged. -/
theorem clock_counter_counts_clock_pulses (scripts : List String)
    (evs : List (ℚ × OfxMidiMessage)) :
    (runMidi evs (startup scripts)).clockMessageCount = wrapInt32 (clockCount evs) ∧
    (clockCount evs < 2 ^ 31 →
      (runMidi evs (startup scripts)).clockMessageCount = clockCount evs) ∧
    (∀ (s : App) (now : ℚ) (msg : OfxMidiMessage), msg.status ≠ MIDI_TIME_CLOCK →
      (newMidiMessage now msg s).clockMessageCount = s.clockMessageCount) := by
  have h := runMidi_count evs (startup scripts) (by simp [startup, wrapInt32])
  have h0 : (startup scripts).clockMessageCount = 0 := rfl
  rw [h0, Int.zero_add] at h
  refine ⟨h, ?_, ?_⟩
  · intro hfit
    rw [h]
    exact wrapInt32_of_range _ (by omega) (by omega)
  · intro s now msg hne
    rw [newMidiMessage_count, if_neg hne]

/-- C6 at a concrete input: Start, two Clocks, Stop, Clock, Continue, Song
Position Pointer, a note-on: the counter ends at 3. -/
theorem clock_counter_counts_clock_pulses_witness :
    clockCount [(1, statusMessage MIDI_START), (2, statusMessage MIDI_TIME_CLOCK),
      (3, statusMessage MIDI_TIME_CLOCK), (4, statusMessage MIDI_STOP),
      (5, statusMessage MIDI_TIME_CLOCK), (6, statusMessage MIDI_CONTINUE),
      (7, statusMessage MIDI_SONG_POS_POINTER), (8, statusMessage 144)] < 2 ^ 31 ∧
    (runMidi [(1, statusMessage MIDI_START), (2, statusMessage MIDI_TIME_CLOCK),
      (3, statusMessage MIDI_TIME_CLOCK), (4, statusMessage MIDI_STOP),
      (5, statusMessage MIDI_TIME_CLOCK), (6, statusMessage MIDI_CONTINUE),
      (7, statusMessage MIDI_SONG_POS_POINTER), (8, statusMessage 144)]
      (startup ["a/main.lua"])).clockMessageCount = 3 :=
  ⟨by decide,
   (clock_counter_counts_clock_pulses ["a/main.lua"]
      [(1, statusMessage MIDI_START), (2, statusMessage MIDI_TIME_CLOCK),
      (3, statusMessage MIDI_TIME_CLOCK), (4, statusMessage MIDI_STOP),
      (5, statusMessage MIDI_TIME_CLOCK), (6, statusMessage MIDI_CONTINUE),
      (7, statusMessage MIDI_SONG_POS_POINTER), (8, statusMessage 144)]).2.1 (by decide)⟩

/-! ## BPM recomputation (C7) -/

theorem newMidiMessage_bpm (now : ℚ) (msg : OfxMidiMessage) (s : App) :
    (newMidiMessage now msg s).calculatedBPM =
      if msg.status = MIDI_TIME_CLOCK ∧ Int.tmod (wrapInt32 (s.clockMessageCount + 1)) 24 = 0 ∧
          s.midiLastClockTime > 0 ∧ now - s.midiLastClockTime > 0 then
        60 / (now - s.midiLastClockTime)
      else s.calculatedBPM := by
  unfold newMidiMessage
  dsimp only
  split_ifs <;> simp_all

theorem newMidiMessage_lastClockTime (now : ℚ) (msg : OfxMidiMessage) (s : App) :
    (newMidiMessage now msg s).midiLastClockTime = s.midiLastClockTime ∨
    (newMidiMessage now msg s).midiLastClockTime = now := by
  unfold newMidiMessage
  dsimp only
  split_ifs <;> simp

@[simp] theorem reloadScript_lastClockTime (s : App) :
    (reloadScript s).midiLastClockTime = s.midiLastClockTime := by
  unfold reloadScript; split <;> rfl

@[simp] theorem nextScript_lastClockTime (s : App) :
    (nextScript s).midiLastClockTime = s.midiLastClockTime := by
  unfold nextScript
  rw [reloadScript_lastClockTime]
  dsimp only
  split <;> rfl

@[simp] theorem prevScript_lastClockTime (s : App) :
    (prevScript s).midiLastClockTime = s.midiLastClockTime := by
  unfold prevScript
  rw [reloadScript_lastClockTime]
  split <;> rfl

@[simp] theorem keyMessage_lastClockTime (m : OscMessage) (s : App) :
    (keyMessage m s).midiLastClockTime = s.midiLastClockTime := by
  unfold keyMessage
  dsimp only
  split_ifs <;> simp

@[simp] theorem knobsMessage_lastClockTime (m : OscMessage) (s : App) :
    (knobsMessage m s).midiLastClockTime = s.midiLastClockTime := rfl

@[simp] theorem midinoteMessage_lastClockTime (m : OscMessage) (s : App) :
    (midinoteMessage m s).midiLastClockTime = s.midiLastClockTime := by
  unfold midinoteMessage
  dsimp only
  split_ifs <;> rfl

@[simp] theorem midiccMessage_lastClockTime (m : OscMessage) (s : App) :
    (midiccMessage m s).midiLastClockTime = s.midiLastClockTime := by
  unfold midiccMessage
  dsimp only
  split_ifs <;> rfl

@[simp] theorem oscMessage_lastClockTime (m : OscMessage) (s : App) :
    (oscMessage m s).midiLastClockTime = s.midiLastClockTime := by
  unfold oscMessage
  dsimp only
  split_ifs <;> simp

theorem foldl_oscMessage_lastClockTime (ms : List OscMessage) :
    ∀ s : App, (ms.foldl (fun st m => oscMessage m st) s).midiLastClockTime =
      s.midiLastClockTime := by
  induction ms with
  | nil => intro s; rfl
  | cons m ms ih => intro s; rw [List.foldl_cons, ih, oscMessage_lastClockTime]

@[simp] theorem drainMidi_lastClockTime (s : App) :
    (drainMidi s).midiLastClockTime = s.midiLastClockTime := by
  unfold drainMidi
  split <;> rfl

@[simp] theorem clockGlobals_lastClockTime (inp : FrameInput) (s : App) :
    (clockGlobals inp s).midiLastClockTime = s.midiLastClockTime := by
  unfold clockGlobals
  dsimp only
  split_ifs <;> rfl

@[simp] theorem update_lastClockTime (inp : FrameInput) (s : App) :
    (update inp s).midiLastClockTime = s.midiLastClockTime := by
  unfold update
  simp [foldl_oscMessage_lastClockTime]

@[simp] theorem draw_lastClockTime (s : App) :
    (draw s).midiLastClockTime = s.midiLastClockTime := by
  unfold draw
  dsimp only
  split_ifs <;> rfl

theorem call_lastClockTime_nonneg (c : Call) (s : App) (hc : c.timeOk = true)
    (h : 0 ≤ s.midiLastClockTime) : 0 ≤ (c.run s).midiLastClockTime := by
  cases c with
  | update inp => simpa [Call.run] using h
  | draw => simpa [Call.run] using h
  | newMidiMessage now msg =>
    simp only [Call.timeOk, decide_eq_true_eq] at hc
    rcases newMidiMessage_lastClockTime now msg s with h1 | h1
    · simpa [Call.run, h1] using h
    · simpa [Call.run, h1] using hc
  | reloadScript => simpa [Call.run] using h
  | nextScript => simpa [Call.run] using h
  | prevScript => simpa [Call.run] using h

theorem runCalls_lastClockTime_nonneg (cs : List Call) :
    ∀ s : App, (∀ c ∈ cs, c.timeOk = true) → 0 ≤ s.midiLastClockTime →
      0 ≤ (runCalls cs s).midiLastClockTime := by
  induction cs with
  | nil => intro s _ h; exact h
  | cons c cs ih =>
    intro s hq h
    exact ih (c.run s) (fun d hd => hq d (List.mem_cons_of_mem _ hd))
      (call_lastClockTime_nonneg c s (hq c (List.mem_cons_self _ _)) h)

/-- C7: in every state reached from startup by calls whose elapsed-time readings
are not negative, `newMidiMessage` changes `calculatedBPM` only when the message
is a Clock pulse that makes the pulse count a multiple of 24, the previous
boundary timestamp is non-zero and the elapsed time `dt` since it is positive;
then the new value is exactly `60 / dt`, which is positive; in every other case
`calculatedBPM` keeps its value. -/
theorem bpm_changes_only_on_valid_beat (scripts : List String) (cs : List Call)
    (htime : ∀ c ∈ cs, c.timeOk = true) (now : ℚ) (msg : OfxMidiMessage) :
    (msg.status = MIDI_TIME_CLOCK ∧
      (24 : Int) ∣ (newMidiMessage now msg (runCalls cs (startup scripts))).clockMessageCount ∧
      (runCalls cs (startup scripts)).midiLastClockTime ≠ 0 ∧
      0 < now - (runCalls cs (startup scripts)).midiLastClockTime →
        (newMidiMessage now msg (runCalls cs (startup scripts))).calculatedBPM =
          60 / (now - (runCalls cs (startup scripts)).midiLastClockTime) ∧
        0 < (newMidiMessage now msg (runCalls cs (startup scripts))).calculatedBPM) ∧
    (¬ (msg.status = MIDI_TIME_CLOCK ∧
      (24 : Int) ∣ (newMidiMessage now msg (runCalls cs (startup scripts))).clockMessageCount ∧
      (runCalls cs (startup scripts)).midiLastClockTime ≠ 0 ∧
      0 < now - (runCalls cs (startup scripts)).midiLastClockTime) →
        (newMidiMessage now msg (runCalls cs (startup scripts))).calculatedBPM =
          (runCalls cs (startup scripts)).calculatedBPM) := by
  have hnn : 0 ≤ (runCalls cs (startup scripts)).midiLastClockTime :=
    runCalls_lastClockTime_nonneg cs (startup scripts) htime (by simp [startup])
  generalize runCalls cs (startup scripts) = s at hnn ⊢
  have hb := newMidiMessage_bpm now msg s
  have hcnt := newMidiMessage_count now msg s
  constructor
  · rintro ⟨hclk, hdvd, hne, hdt⟩
    rw [hcnt, if_pos hclk] at hdvd
    have hpos : s.midiLastClockTime > 0 := lt_of_le_of_ne hnn (Ne.symm hne)
    rw [if_pos ⟨hclk, Int.tmod_eq_zero_of_dvd hdvd, hpos, hdt⟩] at hb
    rw [hb]
    exact ⟨rfl, div_pos (by norm_num) hdt⟩
  · intro hnot
    rw [hb, if_neg]
    rintro ⟨hclk, hmod, hpos, hdt⟩
    apply hnot
    refine ⟨hclk, ?_, ne_of_gt hpos, hdt⟩
    rw [hcnt, if_pos hclk]
    exact Int.dvd_of_tmod_eq_zero hmod

/-! ## The first beat of an even pulse train (C8) -/

theorem newMidiMessage_lastClockTime_eq (now : ℚ) (msg : OfxMidiMessage) (s : App) :
    (newMidiMessage now msg s).midiLastClockTime =
      if msg.status = MIDI_TIME_CLOCK then
        if Int.tmod (wrapInt32 (s.clockMessageCount + 1)) 24 = 0 ∧ s.midiLastClockTime > 0 then now
        else if s.midiLastClockTime = 0 then now else s.midiLastClockTime
      else s.midiLastClockTime := by
  unfold newMidiMessage
  dsimp only
  split_ifs <;> simp_all

theorem clockStep_between (now : ℚ) (s : App) (h0 : 0 ≤ s.clockMessageCount)
    (h1 : s.clockMessageCount + 1 < 2 ^ 31) (hnd : ¬ (24 : Int) ∣ s.clockMessageCount + 1)
    (hL : s.midiLastClockTime ≠ 0) :
    (newMidiMessage now (statusMessage MIDI_TIME_CLOCK) s).clockMessageCount =
      s.clockMessageCount + 1 ∧
    (newMidiMessage now (statusMessage MIDI_TIME_CLOCK) s).midiLastClockTime =
      s.midiLastClockTime ∧
    (newMidiMessage now (statusMessage MIDI_TIME_CLOCK) s).calculatedBPM = s.calculatedBPM := by
  have hw := wrapInt32_of_range (s.clockMessageCount + 1) (by omega) h1
  have hm : ¬ Int.tmod (s.clockMessageCount + 1) 24 = 0 := fun h => hnd (Int.dvd_of_tmod_eq_zero h)
  rw [newMidiMessage_count, newMidiMessage_lastClockTime_eq, newMidiMessage_bpm, hw]
  simp [statusMessage, hm, hL]

theorem clockStep_first (now : ℚ) (s : App) (h0 : 0 ≤ s.clockMessageCount)
    (h1 : s.clockMessageCount + 1 < 2 ^ 31) (hnd : ¬ (24 : Int) ∣ s.clockMessageCount + 1)
    (hL : s.midiLastClockTime = 0) :
    (newMidiMessage now (statusMessage MIDI_TIME_CLOCK) s).clockMessageCount =
      s.clockMessageCount + 1 ∧
    (newMidiMessage now (statusMessage MIDI_TIME_CLOCK) s).midiLastClockTime = now ∧
    (newMidiMessage now (statusMessage MIDI_TIME_CLOCK) s).calculatedBPM = s.calculatedBPM := by
  have hw := wrapInt32_of_range (s.clockMessageCount + 1) (by omega) h1
  have hm : ¬ Int.tmod (s.clockMessageCount + 1) 24 = 0 := fun h => hnd (Int.dvd_of_tmod_eq_zero h)
  rw [newMidiMessage_count, newMidiMessage_lastClockTime_eq, newMidiMessage_bpm, hw]
  simp [statusMessage, hm, hL]

theorem clockStep_boundary (now : ℚ) (s : App) (h0 : 0 ≤ s.clockMessageCount)
    (h1 : s.clockMessageCount + 1 < 2 ^ 31) (hd : (24 : Int) ∣ s.clockMessageCount + 1)
    (hL : 0 < s.midiLastClockTime) (hdt : 0 < now - s.midiLastClockTime) :
    (newMidiMessage now (statusMessage MIDI_TIME_CLOCK) s).clockMessageCount =
      s.clockMessageCount + 1 ∧
    (newMidiMessage now (statusMessage MIDI_TIME_CLOCK) s).midiLastClockTime = now ∧
    (newMidiMessage now (statusMessage MIDI_TIME_CLOCK) s).calculatedBPM =
      60 / (now - s.midiLastClockTime) := by
  have hw := wrapInt32_of_range (s.clockMessageCount + 1) (by omega) h1
  have hm : Int.tmod (s.clockMessageCount + 1) 24 = 0 := Int.tmod_eq_zero_of_dvd hd
  rw [newMidiMessage_count, newMidiMessage_lastClockTime_eq, newMidiMessage_bpm, hw]
  simp [statusMessage, hm, hL, hdt]

theorem runMidi_evenPulses_succ (t0 T : ℚ) (n : Nat) (s : App) :
    runMidi (evenPulses t0 T (n + 1)) s =
      newMidiMessage (t0 + (n : ℚ) * (T / 24)) (statusMessage MIDI_TIME_CLOCK)
        (runMidi (evenPulses t0 T n) s) := by
  simp [runMidi, evenPulses, List.range_succ, List.foldl_append]

theorem evenPulses_before_boundary (t0 T : ℚ) (scripts : List String) (ht0 : 0 < t0) (n : Nat) :
    n < 23 →
      (runMidi (evenPulses t0 T (n + 1)) (startup scripts)).clockMessageCount = (n : Int) + 1 ∧
      (runMidi (evenPulses t0 T (n + 1)) (startup scripts)).midiLastClockTime = t0 ∧
      (runMidi (evenPulses t0 T (n + 1)) (startup scripts)).calculatedBPM = 120 := by
  induction n with
  | zero =>
    intro _
    rw [runMidi_evenPulses_succ]
    have h := clockStep_first (t0 + ((0 : Nat) : ℚ) * (T / 24)) (runMidi (evenPulses t0 T 0)
      (startup scripts)) (by simp [runMidi, evenPulses, startup])
      (by simp [runMidi, evenPulses, startup]) (by simp [runMidi, evenPulses, startup]; omega)
      (by simp [runMidi, evenPulses, startup])
    simpa [runMidi, evenPulses, startup] using h
  | succ n ih =>
    intro hn
    obtain ⟨hc, hl, hb⟩ := ih (by omega)
    rw [runMidi_evenPulses_succ]
    have h := clockStep_between (t0 + ((n + 1 : Nat) : ℚ) * (T / 24))
      (runMidi (evenPulses t0 T (n + 1)) (startup scripts)) (by rw [hc]; omega)
      (by rw [hc]; omega) (by rw [hc]; omega) (by rw [hl]; exact ne_of_gt ht0)
    rw [hc, hl, hb] at h
    refine ⟨?_, h.2.1, h.2.2⟩
    rw [h.1]
    push_cast
    ring

theorem evenPulses_first_boundary (t0 T : ℚ) (scripts : List String) (ht0 : 0 < t0)
    (hT : 0 < T) :
    (runMidi (evenPulses t0 T 24) (startup scripts)).clockMessageCount = 24 ∧
    (runMidi (evenPulses t0 T 24) (startup scripts)).midiLastClockTime = t0 + 23 * (T / 24) ∧
    (runMidi (evenPulses t0 T 24) (startup scripts)).calculatedBPM = 60 / (23 * (T / 24)) := by
  obtain ⟨hc, hl, _⟩ := evenPulses_before_boundary t0 T scripts ht0 22 (by omega)
  rw [runMidi_evenPulses_succ]
  have hdt : 0 < t0 + ((23 : Nat) : ℚ) * (T / 24) -
      (runMidi (evenPulses t0 T 23) (startup scripts)).midiLastClockTime := by
    rw [hl]
    have : 0 < T / 24 := by positivity
    push_cast
    linarith
  have h := clockStep_boundary (t0 + ((23 : Nat) : ℚ) * (T / 24))
    (runMidi (evenPulses t0 T 23) (startup scripts)) (by rw [hc]; norm_num)
    (by rw [hc]; norm_num) (by rw [hc]; norm_num) (by rw [hl]; exact ht0) hdt
  rw [hc, hl] at h
  refine ⟨by rw [h.1]; norm_num, by rw [h.2.1]; norm_num, ?_⟩
  have hsub : t0 + ((23 : Nat) : ℚ) * (T / 24) - t0 = 23 * (T / 24) := by
    push_cast
    ring
  rw [h.2.2, hsub]

theorem evenPulses_second_beat (t0 T : ℚ) (scripts : List String) (ht0 : 0 < t0)
    (hT : 0 < T) (n : Nat) :
    n < 24 →
      (runMidi (evenPulses t0 T (24 + n)) (startup scripts)).clockMessageCount = 24 + (n : Int) ∧
      (runMidi (evenPulses t0 T (24 + n)) (startup scripts)).midiLastClockTime =
        t0 + 23 * (T / 24) ∧
      (runMidi (evenPulses t0 T (24 + n)) (startup scripts)).calculatedBPM =
        60 / (23 * (T / 24)) := by
  induction n with
  | zero =>
    intro _
    simpa using evenPulses_first_boundary t0 T scripts ht0 hT
  | succ n ih =>
    intro hn
    obtain ⟨hc, hl, hb⟩ := ih (by omega)
    have hpos : 0 < t0 + 23 * (T / 24) := by positivity
    rw [← Nat.add_assoc, runMidi_evenPulses_succ]
    have h := clockStep_between (t0 + ((24 + n : Nat) : ℚ) * (T / 24))
      (runMidi (evenPulses t0 T (24 + n)) (startup scripts)) (by rw [hc]; omega)
      (by rw [hc]; omega) (by rw [hc]; omega) (by rw [hl]; exact ne_of_gt hpos)
    rw [hc, hl, hb] at h
    refine ⟨?_, h.2.1, h.2.2⟩
    rw [h.1]
    push_cast
    ring

theorem evenPulses_second_boundary (t0 T : ℚ) (scripts : List String) (ht0 : 0 < t0)
    (hT : 0 < T) :
    (runMidi (evenPulses t0 T 48) (startup scripts)).calculatedBPM = 60 / T := by
  obtain ⟨hc, hl, _⟩ := evenPulses_second_beat t0 T scripts ht0 hT 23 (by omega)
  have hpos : 0 < t0 + 23 * (T / 24) := by positivity
  have hsub : t0 + ((47 : Nat) : ℚ) * (T / 24) - (t0 + 23 * (T / 24)) = T := by
    push_cast
    ring
  have h := clockStep_boundary (t0 + ((47 : Nat) : ℚ) * (T / 24))
    (runMidi (evenPulses t0 T (24 + 23)) (startup scripts)) (by rw [hc]; norm_num)
    (by rw [hc]; norm_num) (by rw [hc]; norm_num) (by rw [hl]; exact hpos)
    (by rw [hl, hsub]; exact hT)
  rw [hl, hsub] at h
  have h48 := runMidi_evenPulses_succ t0 T 47 (startup scripts)
  rw [show (47 : Nat) + 1 = 48 from rfl] at h48
  rw [h48]
  exact h.2.2

theorem runCalls_pulseCalls (t0 T : ℚ) (n : Nat) (s : App) :
    runCalls (pulseCalls t0 T n) s = runMidi (evenPulses t0 T n) s := by
  simp [runCalls, pulseCalls, runMidi, List.foldl_map, Call.run]

theorem pulseCalls_timeOk (t0 T : ℚ) (n : Nat) (ht0 : 0 ≤ t0) (hT : 0 ≤ T) :
    ∀ c ∈ pulseCalls t0 T n, c.timeOk = true := by
  intro c hc
  unfold pulseCalls evenPulses at hc
  rw [List.map_map, List.mem_map] at hc
  obtain ⟨k, _, rfl⟩ := hc
  simp only [Function.comp, Call.timeOk, decide_eq_true_eq]
  exact add_nonneg ht0 (mul_nonneg (Nat.cast_nonneg k) (div_nonneg hT (by norm_num)))

/-- C7 at a concrete input: 23 Clock pulses from time 1 s, spaced 1/48 s, then
the 24th pulse: the BPM becomes `60 / dt` with `dt` the time since the first
pulse. -/
theorem bpm_changes_only_on_valid_beat_witness :
    (∀ c ∈ pulseCalls 1 (1 / 2) 23, c.timeOk = true) ∧
    (newMidiMessage (1 + ((23 : Nat) : ℚ) * (1 / 2 / 24)) (statusMessage MIDI_TIME_CLOCK)
      (runCalls (pulseCalls 1 (1 / 2) 23) (startup ["a/main.lua"]))).calculatedBPM =
      60 / (1 + ((23 : Nat) : ℚ) * (1 / 2 / 24) -
        (runCalls (pulseCalls 1 (1 / 2) 23) (startup ["a/main.lua"])).midiLastClockTime) :=
  ⟨pulseCalls_timeOk 1 (1 / 2) 23 (by norm_num) (by norm_num),
   ((bpm_changes_only_on_valid_beat ["a/main.lua"] (pulseCalls 1 (1 / 2) 23)
      (pulseCalls_timeOk 1 (1 / 2) 23 (by norm_num) (by norm_num))
      (1 + ((23 : Nat) : ℚ) * (1 / 2 / 24)) (statusMessage MIDI_TIME_CLOCK)).1
      (by
        have hb := evenPulses_before_boundary 1 (1 / 2) ["a/main.lua"] (by norm_num) 22
          (by norm_num)
        have h24 := evenPulses_first_boundary 1 (1 / 2) ["a/main.lua"] (by norm_num)
          (by norm_num)
        rw [runMidi_evenPulses_succ] at h24
        rw [runCalls_pulseCalls]
        refine ⟨rfl, ?_, ?_, ?_⟩
        · rw [h24.1]
        · rw [hb.2.1]; norm_num
        · rw [hb.2.1]; norm_num)).1⟩

/-- C8 at the failing input: 24 Clock pulses from startup, the first at 1 s, one
beat (24 pulse intervals) every 0.5 s. At the 24th pulse the code reports
`2880 / 23` (about 125.2), not 120: the first timestamp is taken at pulse 1, so
the first `dt` spans 23 pulse intervals. The next boundary (pulse 48) spans a
full beat and reports 120. -/
theorem first_beat_bpm_is_not_120 :
    (runMidi (evenPulses 1 (1 / 2) 24) (startup ["a/main.lua"])).calculatedBPM = 2880 / 23 ∧
    (runMidi (evenPulses 1 (1 / 2) 24) (startup ["a/main.lua"])).calculatedBPM ≠ 120 ∧
    (runMidi (evenPulses 1 (1 / 2) 24) (startup ["a/main.lua"])).clockMessageCount = 24 ∧
    (runMidi (evenPulses 1 (1 / 2) 48) (startup ["a/main.lua"])).calculatedBPM = 120 := by
  have h24 := evenPulses_first_boundary 1 (1 / 2) ["a/main.lua"] (by norm_num) (by norm_num)
  have h48 := evenPulses_second_boundary 1 (1 / 2) ["a/main.lua"] (by norm_num) (by norm_num)
  refine ⟨?_, ?_, h24.1, ?_⟩
  · rw [h24.2.2]; norm_num
  · rw [h24.2.2]; norm_num
  · rw [h48]; norm_num

/-! ## One event per frame (C9) -/

@[simp] theorem clockGlobals_midiMessages (inp : FrameInput) (s : App) :
    (clockGlobals inp s).midiMessages = s.midiMessages := by
  unfold clockGlobals
  dsimp only
  split_ifs <;> rfl

@[simp] theorem clockGlobals_midi_data (inp : FrameInput) (s : App) :
    (clockGlobals inp s).lua.midi_data = s.lua.midi_data := by
  unfold clockGlobals
  dsimp only
  split_ifs <;> rfl

@[simp] theorem clockGlobals_midi_available (inp : FrameInput) (s : App) :
    (clockGlobals inp s).lua.midi_available = s.lua.midi_available := by
  unfold clockGlobals
  dsimp only
  split_ifs <;> rfl

theorem update_drains_one (inp : FrameInput) (s : App) :
    (update inp s).midiMessages =
      (inp.messages.foldl (fun st m => oscMessage m st) s).midiMessages.tail ∧
    (update inp s).lua.midi_available =
      !(inp.messages.foldl (fun st m => oscMessage m st) s).midiMessages.isEmpty ∧
    (∀ e rest, (inp.messages.foldl (fun st m => oscMessage m st) s).midiMessages = e :: rest →
      (update inp s).lua.midi_data = some e) := by
  unfold update
  simp only [clockGlobals_midiMessages, clockGlobals_midi_data, clockGlobals_midi_available]
  generalize inp.messages.foldl (fun st m => oscMessage m st) s = t
  unfold drainMidi
  cases h : t.midiMessages with
  | nil => simp
  | cons e rest => simp

@[simp] theorem reloadScript_midiMessages (s : App) :
    (reloadScript s).midiMessages = s.midiMessages := by
  unfold reloadScript; split <;> rfl

@[simp] theorem nextScript_midiMessages (s : App) :
    (nextScript s).midiMessages = s.midiMessages := by
  unfold nextScript
  rw [reloadScript_midiMessages]
  dsimp only
  split <;> rfl

@[simp] theorem prevScript_midiMessages (s : App) :
    (prevScript s).midiMessages = s.midiMessages := by
  unfold prevScript
  rw [reloadScript_midiMessages]
  split <;> rfl

@[simp] theorem keyMessage_midiMessages (m : OscMessage) (s : App) :
    (keyMessage m s).midiMessages = s.midiMessages := by
  unfold keyMessage
  dsimp only
  split_ifs <;> simp

@[simp] theorem knobsMessage_midiMessages (m : OscMessage) (s : App) :
    (knobsMessage m s).midiMessages = s.midiMessages := rfl

theorem oscMessage_no_arrival (m : OscMessage) (s : App) (hn : m.address ≠ "/midinote")
    (hc : m.address ≠ "/midicc") : (oscMessage m s).midiMessages = s.midiMessages := by
  unfold oscMessage
  simp only [hn, hc, if_false]
  split_ifs <;> simp

theorem foldl_oscMessage_no_arrival (ms : List OscMessage) :
    ∀ s : App,
      ms.all (fun m => decide (m.address ≠ "/midinote") && decide (m.address ≠ "/midicc")) = true →
      (ms.foldl (fun st m => oscMessage m st) s).midiMessages = s.midiMessages := by
  induction ms with
  | nil => intro s _; rfl
  | cons m ms ih =>
    intro s h
    simp only [List.all_cons, Bool.and_eq_true, decide_eq_true_eq] at h
    rw [List.foldl_cons, ih (oscMessage m s) h.2, oscMessage_no_arrival m s h.1.1 h.1.2]

theorem runUpdates_queue (inps : List FrameInput) :
    ∀ s : App, (∀ inp ∈ inps, inp.noArrivals = true) →
      (runUpdates inps s).midiMessages = s.midiMessages.drop inps.length := by
  induction inps with
  | nil => intro s _; simp [runUpdates]
  | cons inp inps ih =>
    intro s h
    have h0 : inp.noArrivals = true := h inp (List.mem_cons_self _ _)
    have hq : (update inp s).midiMessages = s.midiMessages.tail := by
      rw [(update_drains_one inp s).1, foldl_oscMessage_no_arrival inp.messages s h0]
    have := ih (update inp s) (fun i hi => h i (List.mem_cons_of_mem _ hi))
    simp only [runUpdates, List.foldl_cons] at this ⊢
    rw [this, hq, List.length_cons, ← List.drop_one, List.drop_drop, Nat.add_comm]

/-- C9: every `update`, whatever OSC messages it handles first, looks at the
queue as it stands after those messages: if it is `e :: rest` the update
publishes `midi_data = e`, `midi_available = true` and leaves exactly `rest`; if
it is empty the update publishes `midi_available = false` and the queue stays
empty. An update whose OSC messages bring no arrival (no `/midinote`, no
`/midicc`; `/key`, `/knobs`, `/reload` and others are allowed) finds the queue as
it was on entry. Hence over frames without arrivals the `j`-th update (from 0)
publishes the `j`-th queued event while there is one, and once the `k` queued
events are used up the next update publishes `midi_available = false`. -/
theorem update_publishes_oldest_event (s : App) (inps : List FrameInput)
    (hquiet : ∀ f ∈ inps, f.noArrivals = true) (inp : FrameInput) :
    (∀ e rest, (inp.messages.foldl (fun st m => oscMessage m st) s).midiMessages = e :: rest →
      (update inp s).lua.midi_data = some e ∧ (update inp s).lua.midi_available = true ∧
      (update inp s).midiMessages = rest) ∧
    ((inp.messages.foldl (fun st m => oscMessage m st) s).midiMessages = [] →
      (update inp s).lua.midi_available = false ∧ (update inp s).midiMessages = []) ∧
    (inp.noArrivals = true →
      (inp.messages.foldl (fun st m => oscMessage m st) s).midiMessages = s.midiMessages) ∧
    (inp.noArrivals = true → ∀ e, s.midiMessages[inps.length]? = some e →
      (update inp (runUpdates inps s)).lua.midi_data = some e ∧
      (update inp (runUpdates inps s)).lua.midi_available = true ∧
      (update inp (runUpdates inps s)).midiMessages = s.midiMessages.drop (inps.length + 1)) ∧
    (inp.noArrivals = true → inps.length = s.midiMessages.length →
      (update inp (runUpdates inps s)).lua.midi_available = false ∧
      (update inp (runUpdates inps s)).midiMessages = []) := by
  have hrun := runUpdates_queue inps s hquiet
  refine ⟨?_, ?_, ?_, ?_, ?_⟩
  · intro e rest h
    obtain ⟨h1, h2, h3⟩ := update_drains_one inp s
    exact ⟨h3 e rest h, by rw [h2, h]; rfl, by rw [h1, h]; rfl⟩
  · intro h
    obtain ⟨h1, h2, _⟩ := update_drains_one inp s
    exact ⟨by rw [h2, h]; rfl, by rw [h1, h]; rfl⟩
  · intro hinp
    exact foldl_oscMessage_no_arrival inp.messages s hinp
  · intro hinp e he
    obtain ⟨h1, h2, h3⟩ := update_drains_one inp (runUpdates inps s)
    rw [foldl_oscMessage_no_arrival inp.messages _ hinp] at h1 h2 h3
    have hlt : inps.length < s.midiMessages.length := by
      rcases Nat.lt_or_ge inps.length s.midiMessages.length with h | h
      · exact h
      · rw [List.getElem?_eq_none h] at he
        cases he
    have hget : s.midiMessages[inps.length] = e := by
      rw [List.getElem?_eq_getElem hlt] at he
      exact Option.some.inj he
    have hcons : (runUpdates inps s).midiMessages =
        e :: s.midiMessages.drop (inps.length + 1) := by
      rw [hrun, List.drop_eq_getElem_cons hlt, hget]
    exact ⟨h3 _ _ hcons, by rw [h2, hcons]; rfl, by rw [h1, hcons]; rfl⟩
  · intro hinp hlen
    obtain ⟨h1, h2, _⟩ := update_drains_one inp (runUpdates inps s)
    rw [foldl_oscMessage_no_arrival inp.messages _ hinp] at h1 h2
    have hnil : (runUpdates inps s).midiMessages = [] := by
      rw [hrun, hlen, List.drop_length]
    exact ⟨by rw [h2, hnil]; rfl, by rw [h1, hnil]; rfl⟩

/-- C9 at a concrete input: two network notes are queued; a frame that carries
a `/knobs` message publishes the first, and the next frame, which carries a
`/key 1` message, publishes the second. A frame that itself carries a
`/midinote` into the empty startup queue publishes that note at once. -/
theorem update_publishes_oldest_event_witness :
    (∀ f ∈ [(⟨[⟨"/knobs", [1, 2, 3, 4, 5]⟩], false, 0, 120, 0⟩ : FrameInput)],
      f.noArrivals = true) ∧
    (update ⟨[⟨"/key", [1, 1]⟩], false, 0, 120, 0⟩
      (runUpdates [⟨[⟨"/knobs", [1, 2, 3, 4, 5]⟩], false, 0, 120, 0⟩]
        (runProducers [Producer.midinote 60 100, Producer.midinote 61 100]
          (startup ["a/main.lua"])))).lua.midi_data = some (noteData 61 100) ∧
    (update ⟨[⟨"/midinote", [60, 100]⟩], false, 0, 120, 0⟩
      (startup ["a/main.lua"])).lua.midi_data = some (noteData 60 100) :=
  ⟨by decide,
   ((update_publishes_oldest_event
      (runProducers [Producer.midinote 60 100, Producer.midinote 61 100]
        (startup ["a/main.lua"]))
      [⟨[⟨"/knobs", [1, 2, 3, 4, 5]⟩], false, 0, 120, 0⟩] (by decide)
      ⟨[⟨"/key", [1, 1]⟩], false, 0, 120, 0⟩).2.2.2.1 (by decide)
      (noteData 61 100) (by decide)).1,
   ((update_publishes_oldest_event (startup ["a/main.lua"]) [] (by decide)
      ⟨[⟨"/midinote", [60, 100]⟩], false, 0, 120, 0⟩).1 (noteData 60 100) [] (by decide)).1⟩

/-! ## Beat and bar triggers (C10) -/

/-- C10 at the failing input: the first `update` after startup, with no OSC
messages and a clock that has counted no beat. The bar is 1, the startup bar, and
the beat trigger is false, yet `midi_bar_trigger` is published true, because the
static `lastBar` starts at 0 while bars are numbered from 1. The draw that
follows clears it. -/
theorem first_update_fires_bar_trigger (scripts : List String) (inp : FrameInput) :
    (update { inp with messages := [], clockBeats := 0 } (startup scripts)).lua.midi_bar = 1 ∧
    (update { inp with messages := [], clockBeats := 0 }
      (startup scripts)).lua.midi_beat_trigger = false ∧
    (update { inp with messages := [], clockBeats := 0 }
      (startup scripts)).lua.midi_bar_trigger = true ∧
    (draw (update { inp with messages := [], clockBeats := 0 }
      (startup scripts))).lua.midi_bar_trigger = false := by
  simp [update, drainMidi, clockGlobals, draw, startup, UINT_MOD]

/-- What `update` publishes as triggers: the beat trigger compares the beat
count with `lastBeat`, the bar trigger compares the bar with `lastBar`, and both
statics then hold the values just seen. -/
theorem clockGlobals_triggers (inp : FrameInput) (s : App) :
    (clockGlobals inp s).lua.midi_beat_trigger = decide (inp.clockBeats % UINT_MOD ≠ s.lastBeat) ∧
    (clockGlobals inp s).lua.midi_bar_trigger =
      decide ((inp.clockBeats % UINT_MOD / 4 + 1) % UINT_MOD ≠ s.lastBar) ∧
    (clockGlobals inp s).lastBeat = inp.clockBeats % UINT_MOD ∧
    (clockGlobals inp s).lastBar = (inp.clockBeats % UINT_MOD / 4 + 1) % UINT_MOD := by
  unfold clockGlobals
  dsimp only
  split_ifs <;> exact ⟨rfl, rfl, rfl, rfl⟩

/-- After `draw` the one-shot flags `trig`, `midi_beat_trigger` and
`midi_bar_trigger` are false. -/
theorem draw_clears_triggers (s : App) :
    (draw s).lua.trig = false ∧ (draw s).lua.midi_beat_trigger = false ∧
    (draw s).lua.midi_bar_trigger = false := by
  unfold draw
  exact ⟨rfl, rfl, rfl⟩

/-! ## Transport detection (C11) -/

@[simp] theorem reloadScript_lastBeat (s : App) :
    (reloadScript s).lastBeat = s.lastBeat := by
  unfold reloadScript; split <;> rfl

@[simp] theorem nextScript_lastBeat (s : App) :
    (nextScript s).lastBeat = s.lastBeat := by
  unfold nextScript
  rw [reloadScript_lastBeat]
  dsimp only
  split <;> rfl

@[simp] theorem prevScript_lastBeat (s : App) :
    (prevScript s).lastBeat = s.lastBeat := by
  unfold prevScript
  rw [reloadScript_lastBeat]
  split <;> rfl

@[simp] theorem keyMessage_lastBeat (m : OscMessage) (s : App) :
    (keyMessage m s).lastBeat = s.lastBeat := by
  unfold keyMessage
  dsimp only
  split_ifs <;> simp

@[simp] theorem knobsMessage_lastBeat (m : OscMessage) (s : App) :
    (knobsMessage m s).lastBeat = s.lastBeat := by
  rfl

@[simp] theorem midinoteMessage_lastBeat (m : OscMessage) (s : App) :
    (midinoteMessage m s).lastBeat = s.lastBeat := by
  unfold midinoteMessage
  dsimp only
  split_ifs <;> rfl

@[simp] theorem midiccMessage_lastBeat (m : OscMessage) (s : App) :
    (midiccMessage m s).lastBeat = s.lastBeat := by
  unfold midiccMessage
  dsimp only
  split_ifs <;> rfl

@[simp] theorem oscMessage_lastBeat (m : OscMessage) (s : App) :
    (oscMessage m s).lastBeat = s.lastBeat := by
  unfold oscMessage
  dsimp only
  split_ifs <;> simp

theorem foldl_oscMessage_lastBeat (ms : List OscMessage) :
    ∀ s : App, (ms.foldl (fun st m => oscMessage m st) s).lastBeat = s.lastBeat := by
  induction ms with
  | nil => intro s; rfl
  | cons m ms ih => intro s; rw [List.foldl_cons, ih, oscMessage_lastBeat]

@[simp] theorem drainMidi_lastBeat (s : App) :
    (drainMidi s).lastBeat = s.lastBeat := by
  unfold drainMidi
  split <;> rfl

@[simp] theorem reloadScript_updateLastClockTime (s : App) :
    (reloadScript s).updateLastClockTime = s.updateLastClockTime := by
  unfold reloadScript; split <;> rfl

@[simp] theorem nextScript_updateLastClockTime (s : App) :
    (nextScript s).updateLastClockTime = s.updateLastClockTime := by
  unfold nextScript
  rw [reloadScript_updateLastClockTime]
  dsimp only
  split <;> rfl

@[simp] theorem prevScript_updateLastClockTime (s : App) :
    (prevScript s).updateLastClockTime = s.updateLastClockTime := by
  unfold prevScript
  rw [reloadScript_updateLastClockTime]
  split <;> rfl

@[simp] theorem keyMessage_updateLastClockTime (m : OscMessage) (s : App) :
    (keyMessage m s).updateLastClockTime = s.updateLastClockTime := by
  unfold keyMessage
  dsimp only
  split_ifs <;> simp

@[simp] theorem knobsMessage_updateLastClockTime (m : OscMessage) (s : App) :
    (knobsMessage m s).updateLastClockTime = s.updateLastClockTime := by
  rfl

@[simp] theorem midinoteMessage_updateLastClockTime (m : OscMessage) (s : App) :
    (midinoteMessage m s).updateLastClockTime = s.updateLastClockTime := by
  unfold midinoteMessage
  dsimp only
  split_ifs <;> rfl

@[simp] theorem midiccMessage_updateLastClockTime (m : OscMessage) (s : App) :
    (midiccMessage m s).updateLastClockTime = s.updateLastClockTime := by
  unfold midiccMessage
  dsimp only
  split_ifs <;> rfl

@[simp] theorem oscMessage_updateLastClockTime (m : OscMessage) (s : App) :
    (oscMessage m s).updateLastClockTime = s.updateLastClockTime := by
  unfold oscMessage
  dsimp only
  split_ifs <;> simp

theorem foldl_oscMessage_updateLastClockTime (ms : List OscMessage) :
    ∀ s : App, (ms.foldl (fun st m => oscMessage m st) s).updateLastClockTime = s.updateLastClockTime := by
  induction ms with
  | nil => intro s; rfl
  | cons m ms ih => intro s; rw [List.foldl_cons, ih, oscMessage_updateLastClockTime]

@[simp] theorem drainMidi_updateLastClockTime (s : App) :
    (drainMidi s).updateLastClockTime = s.updateLastClockTime := by
  unfold drainMidi
  split <;> rfl

@[simp] theorem reloadScript_transportRunning (s : App) :
    (reloadScript s).transportRunning = s.transportRunning := by
  unfold reloadScript; split <;> rfl

@[simp] theorem nextScript_transportRunning (s : App) :
    (nextScript s).transportRunning = s.transportRunning := by
  unfold nextScript
  rw [reloadScript_transportRunning]
  dsimp only
  split <;> rfl

@[simp] theorem prevScript_transportRunning (s : App) :
    (prevScript s).transportRunning = s.transportRunning := by
  unfold prevScript
  rw [reloadScript_transportRunning]
  split <;> rfl

@[simp] theorem keyMessage_transportRunning (m : OscMessage) (s : App) :
    (keyMessage m s).transportRunning = s.transportRunning := by
  unfold keyMessage
  dsimp only
  split_ifs <;> simp

@[simp] theorem knobsMessage_transportRunning (m : OscMessage) (s : App) :
    (knobsMessage m s).transportRunning = s.transportRunning := by
  rfl

@[simp] theorem midinoteMessage_transportRunning (m : OscMessage) (s : App) :
    (midinoteMessage m s).transportRunning = s.transportRunning := by
  unfold midinoteMessage
  dsimp only
  split_ifs <;> rfl

@[simp] theorem midiccMessage_transportRunning (m : OscMessage) (s : App) :
    (midiccMessage m s).transportRunning = s.transportRunning := by
  unfold midiccMessage
  dsimp only
  split_ifs <;> rfl

@[simp] theorem oscMessage_transportRunning (m : OscMessage) (s : App) :
    (oscMessage m s).transportRunning = s.transportRunning := by
  unfold oscMessage
  dsimp only
  split_ifs <;> simp

theorem foldl_oscMessage_transportRunning (ms : List OscMessage) :
    ∀ s : App, (ms.foldl (fun st m => oscMessage m st) s).transportRunning = s.transportRunning := by
  induction ms with
  | nil => intro s; rfl
  | cons m ms ih => intro s; rw [List.foldl_cons, ih, oscMessage_transportRunning]

@[simp] theorem drainMidi_transportRunning (s : App) :
    (drainMidi s).transportRunning = s.transportRunning := by
  unfold drainMidi
  split <;> rfl

theorem clockGlobals_transport (inp : FrameInput) (s : App) :
    (clockGlobals inp s).transportRunning =
      (if inp.clockBeats % UINT_MOD ≠ s.lastBeat then true
        else if inp.currentTime - s.updateLastClockTime > 2 then false
        else s.transportRunning) ∧
    (clockGlobals inp s).updateLastClockTime =
      (if inp.clockBeats % UINT_MOD ≠ s.lastBeat then inp.currentTime
        else s.updateLastClockTime) ∧
    (clockGlobals inp s).lua.midi_transport_playing = (clockGlobals inp s).transportRunning ∧
    (clockGlobals inp s).lastBeat = inp.clockBeats % UINT_MOD := by
  unfold clockGlobals
  dsimp only
  by_cases hb : inp.clockBeats % UINT_MOD = s.lastBeat
  · by_cases ht : inp.currentTime - s.updateLastClockTime > 2
    · simp [hb, ht]
    · simp [hb, ht]
  · simp [hb]

theorem update_transport (inp : FrameInput) (s : App) :
    (update inp s).transportRunning =
      (if inp.clockBeats % UINT_MOD ≠ s.lastBeat then true
        else if inp.currentTime - s.updateLastClockTime > 2 then false
        else s.transportRunning) ∧
    (update inp s).updateLastClockTime =
      (if inp.clockBeats % UINT_MOD ≠ s.lastBeat then inp.currentTime
        else s.updateLastClockTime) ∧
    (update inp s).lua.midi_transport_playing = (update inp s).transportRunning ∧
    (update inp s).lastBeat = inp.clockBeats % UINT_MOD := by
  have h := clockGlobals_transport inp
    (drainMidi (inp.messages.foldl (fun st m => oscMessage m st) s))
  simp only [drainMidi_lastBeat, drainMidi_updateLastClockTime, drainMidi_transportRunning,
    foldl_oscMessage_lastBeat, foldl_oscMessage_updateLastClockTime,
    foldl_oscMessage_transportRunning] at h
  exact h

theorem runUpdates_no_new_beat (inps : List FrameInput) (b : Nat) :
    ∀ t : App, t.lastBeat = b → (∀ f ∈ inps, f.clockBeats % UINT_MOD = b) →
      (runUpdates inps t).lastBeat = b ∧
      (runUpdates inps t).updateLastClockTime = t.updateLastClockTime ∧
      ((∀ f ∈ inps, f.currentTime - t.updateLastClockTime ≤ 2) →
        (runUpdates inps t).transportRunning = t.transportRunning) := by
  induction inps with
  | nil => intro t hb _; exact ⟨hb, rfl, fun _ => rfl⟩
  | cons f fs ih =>
    intro t hb hno
    have hf : f.clockBeats % UINT_MOD = t.lastBeat := by
      rw [hb]; exact hno f (List.mem_cons_self _ _)
    obtain ⟨hrun, hlast, _, hbeat⟩ := update_transport f t
    rw [if_neg (not_not.mpr hf)] at hrun hlast
    obtain ⟨h1, h2, h3⟩ := ih (update f t) (by rw [hbeat, hf, hb])
      (fun g hg => hno g (List.mem_cons_of_mem _ hg))
    simp only [runUpdates, List.foldl_cons] at h1 h2 h3 ⊢
    refine ⟨h1, by rw [h2, hlast], ?_⟩
    intro hle
    have hfle : ¬ f.currentTime - t.updateLastClockTime > 2 :=
      not_lt.mpr (hle f (List.mem_cons_self _ _))
    rw [if_neg hfle] at hrun
    rw [h3 (fun g hg => by rw [hlast]; exact hle g (List.mem_cons_of_mem _ hg)), hrun]

/-- C11: an `update` at time `t` that sees a new beat sets transport running and
the last-seen timestamp to `t`; one that sees no new beat sets running to false
if `t` minus the last-seen timestamp exceeds 2 seconds and otherwise keeps both;
the value is published as `midi_transport_playing`. Hence after a new beat at
time `t0`, further frames without a new beat keep running true as long as their
times stay within `t0 + 2`, a frame with `t - t0 > 2` publishes false, and a
later frame with a new beat publishes true again. -/
theorem transport_running_rule (inp : FrameInput) (s : App) (fs : List FrameInput)
    (hno : ∀ f ∈ fs, f.clockBeats % UINT_MOD = inp.clockBeats % UINT_MOD)
    (late : FrameInput) (hlate : late.clockBeats % UINT_MOD = inp.clockBeats % UINT_MOD)
    (again : FrameInput) (hagain : again.clockBeats % UINT_MOD ≠ inp.clockBeats % UINT_MOD) :
    (update inp s).lua.midi_transport_playing = (update inp s).transportRunning ∧
    (inp.clockBeats % UINT_MOD ≠ s.lastBeat →
      (update inp s).transportRunning = true ∧
      (update inp s).updateLastClockTime = inp.currentTime) ∧
    (inp.clockBeats % UINT_MOD = s.lastBeat → inp.currentTime - s.updateLastClockTime > 2 →
      (update inp s).transportRunning = false ∧
      (update inp s).updateLastClockTime = s.updateLastClockTime) ∧
    (inp.clockBeats % UINT_MOD = s.lastBeat → ¬ inp.currentTime - s.updateLastClockTime > 2 →
      (update inp s).transportRunning = s.transportRunning ∧
      (update inp s).updateLastClockTime = s.updateLastClockTime) ∧
    (inp.clockBeats % UINT_MOD ≠ s.lastBeat →
      ((∀ f ∈ fs, f.currentTime - inp.currentTime ≤ 2) →
        (runUpdates fs (update inp s)).lua.midi_transport_playing = true) ∧
      (late.currentTime - inp.currentTime > 2 →
        (update late (runUpdates fs (update inp s))).lua.midi_transport_playing = false) ∧
      (update again (update late (runUpdates fs (update inp s)))).lua.midi_transport_playing =
        true) := by
  obtain ⟨hrun, hlast, hpub, hbeat⟩ := update_transport inp s
  refine ⟨hpub, ?_, ?_, ?_, ?_⟩
  · intro hnew
    rw [hrun, hlast, if_pos hnew, if_pos hnew]
    exact ⟨rfl, rfl⟩
  · intro hsame hgt
    rw [hrun, hlast, if_neg (not_not.mpr hsame), if_neg (not_not.mpr hsame), if_pos hgt]
    exact ⟨rfl, rfl⟩
  · intro hsame hle
    rw [hrun, hlast, if_neg (not_not.mpr hsame), if_neg (not_not.mpr hsame), if_neg hle]
    exact ⟨rfl, rfl⟩
  · intro hnew
    rw [if_pos hnew] at hrun hlast
    obtain ⟨k1, k2, k3⟩ := runUpdates_no_new_beat fs (inp.clockBeats % UINT_MOD)
      (update inp s) hbeat hno
    rw [hlast] at k2 k3
    obtain ⟨lrun, _, lpub, lbeat⟩ := update_transport late (runUpdates fs (update inp s))
    obtain ⟨arun, _, apub, _⟩ := update_transport again
      (update late (runUpdates fs (update inp s)))
    refine ⟨?_, ?_, ?_⟩
    · intro hle
      have hr := k3 hle
      rw [hrun] at hr
      cases fs with
      | nil => rw [← hr]; exact hpub
      | cons f fs =>
        have hsplit : runUpdates (f :: fs) (update inp s) =
            update ((f :: fs).getLast (List.cons_ne_nil _ _))
              (runUpdates ((f :: fs).dropLast) (update inp s)) := by
          conv_lhs => rw [← List.dropLast_append_getLast (List.cons_ne_nil f fs)]
          simp [runUpdates, List.foldl_append]
        rw [← hr]
        rw [hsplit]
        exact (update_transport _ _).2.2.1
    · intro hgt
      rw [lpub, lrun, k1, k2, if_neg (not_not.mpr hlate), if_pos hgt]
    · rw [apub, arun, lbeat, if_pos (by rw [hlate]; exact hagain)]

/-- C11 at a concrete input: a first beat at 10 s, frames without a new beat at
11 s and 12 s (still running), one at 12.5 s (stopped), then a new beat at 13 s
(running again). -/
theorem transport_running_rule_witness :
    (∀ f ∈ [(⟨[], true, 1, 120, 11⟩ : FrameInput), ⟨[], true, 1, 120, 12⟩],
      f.clockBeats % UINT_MOD = (⟨[], true, 1, 120, 10⟩ : FrameInput).clockBeats % UINT_MOD) ∧
    (runUpdates [⟨[], true, 1, 120, 11⟩, ⟨[], true, 1, 120, 12⟩]
      (update ⟨[], true, 1, 120, 10⟩ (startup ["a/main.lua"]))).lua.midi_transport_playing
        = true ∧
    (update ⟨[], true, 1, 120, 25 / 2⟩
      (runUpdates [⟨[], true, 1, 120, 11⟩, ⟨[], true, 1, 120, 12⟩]
        (update ⟨[], true, 1, 120, 10⟩ (startup ["a/main.lua"])))).lua.midi_transport_playing
        = false ∧
    (update ⟨[], true, 2, 120, 13⟩ (update ⟨[], true, 1, 120, 25 / 2⟩
      (runUpdates [⟨[], true, 1, 120, 11⟩, ⟨[], true, 1, 120, 12⟩]
        (update ⟨[], true, 1, 120, 10⟩ (startup ["a/main.lua"]))))).lua.midi_transport_playing
        = true :=
  have hno : ∀ f ∈ [(⟨[], true, 1, 120, 11⟩ : FrameInput), ⟨[], true, 1, 120, 12⟩],
      f.clockBeats % UINT_MOD = (⟨[], true, 1, 120, 10⟩ : FrameInput).clockBeats % UINT_MOD := by
    intro f hf
    simp only [List.mem_cons, List.mem_singleton, List.not_mem_nil, or_false] at hf
    rcases hf with rfl | rfl <;> rfl
  have h := (transport_running_rule ⟨[], true, 1, 120, 10⟩ (startup ["a/main.lua"])
    [⟨[], true, 1, 120, 11⟩, ⟨[], true, 1, 120, 12⟩] hno
    ⟨[], true, 1, 120, 25 / 2⟩ rfl ⟨[], true, 2, 120, 13⟩ (by decide)).2.2.2.2 (by decide)
  ⟨hno,
   h.1 (by
    intro f hf
    simp only [List.mem_cons, List.mem_singleton, List.not_mem_nil, or_false] at hf
    rcases hf with rfl | rfl <;> norm_num),
   h.2.1 (by norm_num), h.2.2⟩

/-! ## Network event records (C12) -/

theorem oscMessage_midinote_queue (m : OscMessage) (s : App) (h : m.address = "/midinote") :
    (oscMessage m s).midiMessages =
      if (s.midiMessages ++ [noteData (m.getArgAsInt32 0) (m.getArgAsInt32 1)]).length > 100 then
        (s.midiMessages ++ [noteData (m.getArgAsInt32 0) (m.getArgAsInt32 1)]).tail
      else s.midiMessages ++ [noteData (m.getArgAsInt32 0) (m.getArgAsInt32 1)] := by
  unfold oscMessage
  simp only [h]
  simp [midinote_queue]

theorem oscMessage_midicc_queue (m : OscMessage) (s : App) (h : m.address = "/midicc") :
    (oscMessage m s).midiMessages =
      if (s.midiMessages ++ [ccData (m.getArgAsInt32 0) (m.getArgAsInt32 1)]).length > 100 then
        (s.midiMessages ++ [ccData (m.getArgAsInt32 0) (m.getArgAsInt32 1)]).tail
      else s.midiMessages ++ [ccData (m.getArgAsInt32 0) (m.getArgAsInt32 1)] := by
  unfold oscMessage
  simp only [h]
  simp [midicc_queue]

theorem pushed_is_last (q : List MidiData) (e : MidiData) :
    (if (q ++ [e]).length > 100 then (q ++ [e]).tail else q ++ [e]).getLast? = some e := by
  split
  · next hlen =>
    cases q with
    | nil => simp at hlen
    | cons a q => simp
  · simp

/-- C12: a `/midinote` message with arguments `pitch`, `velocity` appends the
record `{144, 0, pitch, velocity, 0, 0, 129, 0}` when `velocity > 0` and
`{128, 0, pitch, 0, 0, 0, 129, 0}` when `velocity = 0`; a `/midicc` message with
arguments `control`, `value` appends `{176, 0, 0, 0, control, value, 129, 0}`.
Appending puts the record at the back of the queue, behind the events already
there (the oldest of which is dropped when the queue would exceed 100). -/
theorem network_messages_append_records (pitch velocity control value : Int) (s : App) :
    (velocity > 0 →
      (oscMessage ⟨"/midinote", [pitch, velocity]⟩ s).midiMessages =
        (if (s.midiMessages ++ [(MidiData.mk 144 0 pitch velocity 0 0 129 0)]).length > 100 then
          (s.midiMessages ++ [(MidiData.mk 144 0 pitch velocity 0 0 129 0)]).tail
        else s.midiMessages ++ [(MidiData.mk 144 0 pitch velocity 0 0 129 0)]) ∧
      (oscMessage ⟨"/midinote", [pitch, velocity]⟩ s).midiMessages.getLast? =
        some (MidiData.mk 144 0 pitch velocity 0 0 129 0)) ∧
    (velocity = 0 →
      (oscMessage ⟨"/midinote", [pitch, velocity]⟩ s).midiMessages =
        (if (s.midiMessages ++ [(MidiData.mk 128 0 pitch 0 0 0 129 0)]).length > 100 then
          (s.midiMessages ++ [(MidiData.mk 128 0 pitch 0 0 0 129 0)]).tail
        else s.midiMessages ++ [(MidiData.mk 128 0 pitch 0 0 0 129 0)]) ∧
      (oscMessage ⟨"/midinote", [pitch, velocity]⟩ s).midiMessages.getLast? =
        some (MidiData.mk 128 0 pitch 0 0 0 129 0)) ∧
    ((oscMessage ⟨"/midicc", [control, value]⟩ s).midiMessages =
        (if (s.midiMessages ++ [(MidiData.mk 176 0 0 0 control value 129 0)]).length > 100 then
          (s.midiMessages ++ [(MidiData.mk 176 0 0 0 control value 129 0)]).tail
        else s.midiMessages ++ [(MidiData.mk 176 0 0 0 control value 129 0)]) ∧
      (oscMessage ⟨"/midicc", [control, value]⟩ s).midiMessages.getLast? =
        some (MidiData.mk 176 0 0 0 control value 129 0)) := by
  have hn := oscMessage_midinote_queue ⟨"/midinote", [pitch, velocity]⟩ s rfl
  have hc := oscMessage_midicc_queue ⟨"/midicc", [control, value]⟩ s rfl
  have a0 : (⟨"/midinote", [pitch, velocity]⟩ : OscMessage).getArgAsInt32 0 = pitch := rfl
  have a1 : (⟨"/midinote", [pitch, velocity]⟩ : OscMessage).getArgAsInt32 1 = velocity := rfl
  have c0 : (⟨"/midicc", [control, value]⟩ : OscMessage).getArgAsInt32 0 = control := rfl
  have c1 : (⟨"/midicc", [control, value]⟩ : OscMessage).getArgAsInt32 1 = value := rfl
  rw [a0, a1] at hn
  rw [c0, c1] at hc
  refine ⟨?_, ?_, ?_⟩
  · intro hv
    have hrec : noteData pitch velocity = (MidiData.mk 144 0 pitch velocity 0 0 129 0) := by
      simp [noteData, hv]
    rw [hrec] at hn
    exact ⟨hn, by rw [hn]; exact pushed_is_last _ _⟩
  · intro hv
    have hrec : noteData pitch velocity = (MidiData.mk 128 0 pitch 0 0 0 129 0) := by
      simp [noteData, hv]
    rw [hrec] at hn
    exact ⟨hn, by rw [hn]; exact pushed_is_last _ _⟩
  · have hrec : ccData control value = (MidiData.mk 176 0 0 0 control value 129 0) := rfl
    rw [hrec] at hc
    exact ⟨hc, by rw [hc]; exact pushed_is_last _ _⟩

/-- C12 at a concrete input: note-on 60 with velocity 100, note-off 60, and
controller 7 set to 127, each into the startup queue. -/
theorem network_messages_append_records_witness :
    (oscMessage ⟨"/midinote", [60, 100]⟩ (startup ["a/main.lua"])).midiMessages.getLast? =
      some (MidiData.mk 144 0 60 100 0 0 129 0) ∧
    (oscMessage ⟨"/midinote", [60, 0]⟩ (startup ["a/main.lua"])).midiMessages.getLast? =
      some (MidiData.mk 128 0 60 0 0 0 129 0) ∧
    (oscMessage ⟨"/midicc", [7, 127]⟩ (startup ["a/main.lua"])).midiMessages.getLast? =
      some (MidiData.mk 176 0 0 0 7 127 129 0) :=
  ⟨((network_messages_append_records 60 100 7 127 (startup ["a/main.lua"])).1 (by decide)).2,
   ((network_messages_append_records 60 0 7 127 (startup ["a/main.lua"])).2.1 rfl).2,
   (network_messages_append_records 60 100 7 127 (startup ["a/main.lua"])).2.2.2⟩

/-! ## Audio buffers and level (C13) -/

theorem storeLoop_spec {α : Type} [Field α] (input : SoundBuffer α) (a : Audio α) (n : Nat) :
    ((List.range n).foldl (fun a i =>
      let a := { a with left := a.left.set i (input.get (i * 2) * 0.5) }
      { a with right := a.right.set i (input.get (i * 2 + 1) * 0.5) }) a).left.length =
        a.left.length ∧
    ((List.range n).foldl (fun a i =>
      let a := { a with left := a.left.set i (input.get (i * 2) * 0.5) }
      { a with right := a.right.set i (input.get (i * 2 + 1) * 0.5) }) a).right.length =
        a.right.length ∧
    ((List.range n).foldl (fun a i =>
      let a := { a with left := a.left.set i (input.get (i * 2) * 0.5) }
      { a with right := a.right.set i (input.get (i * 2 + 1) * 0.5) }) a).bufferCounter =
        a.bufferCounter ∧
    (∀ i, ((List.range n).foldl (fun a i =>
      let a := { a with left := a.left.set i (input.get (i * 2) * 0.5) }
      { a with right := a.right.set i (input.get (i * 2 + 1) * 0.5) }) a).left[i]? =
        if i < n ∧ i < a.left.length then some (input.get (i * 2) * 0.5) else a.left[i]?) ∧
    (∀ i, ((List.range n).foldl (fun a i =>
      let a := { a with left := a.left.set i (input.get (i * 2) * 0.5) }
      { a with right := a.right.set i (input.get (i * 2 + 1) * 0.5) }) a).right[i]? =
        if i < n ∧ i < a.right.length then some (input.get (i * 2 + 1) * 0.5)
        else a.right[i]?) := by
  induction n with
  | zero => simp
  | succ n ih =>
    obtain ⟨h1, h2, h3, h4, h5⟩ := ih
    rw [List.range_succ, List.foldl_append]
    simp only [List.foldl_cons, List.foldl_nil, List.length_set]
    refine ⟨h1, h2, h3, ?_, ?_⟩
    · intro i
      rw [List.getElem?_set, h4 i, h1]
      by_cases hi : n = i
      · subst hi
        by_cases hlt : n < a.left.length
        · simp [hlt]
        · simp [hlt, List.getElem?_eq_none (not_lt.mp hlt)]
      · have : (i < n + 1 ∧ i < a.left.length) ↔ (i < n ∧ i < a.left.length) := by omega
        simp only [hi, if_false, this]
    · intro i
      rw [List.getElem?_set, h5 i, h2]
      by_cases hi : n = i
      · subst hi
        by_cases hlt : n < a.right.length
        · simp [hlt]
        · simp [hlt, List.getElem?_eq_none (not_lt.mp hlt)]
      · have : (i < n + 1 ∧ i < a.right.length) ↔ (i < n ∧ i < a.right.length) := by omega
        simp only [hi, if_false, this]

theorem sumLoop_spec {α : Type} [Field α] (f : Nat → α) (n : Nat) :
    (List.range n).foldl (fun sum i => sum + f i) 0 = ∑ i in Finset.range n, f i := by
  induction n with
  | zero => simp
  | succ n ih => rw [List.range_succ, List.foldl_append, ih, Finset.sum_range_succ]; rfl

theorem audioIn_spec {α : Type} [Field α] (sqrt : α → α) (input : SoundBuffer α)
    (a : Audio α) (hl : input.getNumFrames ≤ a.left.length)
    (hr : input.getNumFrames ≤ a.right.length) :
    (audioIn sqrt input a).left.length = a.left.length ∧
    (audioIn sqrt input a).right.length = a.right.length ∧
    (∀ i, i < input.getNumFrames →
      (audioIn sqrt input a).left[i]? = some (input.get (i * 2) * 0.5) ∧
      (audioIn sqrt input a).right[i]? = some (input.get (i * 2 + 1) * 0.5)) ∧
    (audioIn sqrt input a).audioLevel =
      sqrt ((∑ i in Finset.range input.getNumFrames,
        ((input.get (i * 2) * 0.5 + input.get (i * 2 + 1) * 0.5) * 0.5) *
        ((input.get (i * 2) * 0.5 + input.get (i * 2 + 1) * 0.5) * 0.5)) /
        (input.getNumFrames : α)) := by
  obtain ⟨h1, h2, _, h4, h5⟩ := storeLoop_spec input a input.getNumFrames
  have hleft : ∀ i, i < input.getNumFrames →
      ((List.range input.getNumFrames).foldl (fun a i =>
        let a := { a with left := a.left.set i (input.get (i * 2) * 0.5) }
        { a with right := a.right.set i (input.get (i * 2 + 1) * 0.5) }) a).left[i]? =
        some (input.get (i * 2) * 0.5) := by
    intro i hi
    rw [h4 i, if_pos ⟨hi, lt_of_lt_of_le hi hl⟩]
  have hright : ∀ i, i < input.getNumFrames →
      ((List.range input.getNumFrames).foldl (fun a i =>
        let a := { a with left := a.left.set i (input.get (i * 2) * 0.5) }
        { a with right := a.right.set i (input.get (i * 2 + 1) * 0.5) }) a).right[i]? =
        some (input.get (i * 2 + 1) * 0.5) := by
    intro i hi
    rw [h5 i, if_pos ⟨hi, lt_of_lt_of_le hi hr⟩]
  unfold audioIn
  dsimp only
  refine ⟨h1, h2, fun i hi => ⟨hleft i hi, hright i hi⟩, ?_⟩
  congr 2
  rw [sumLoop_spec]
  apply Finset.sum_congr rfl
  intro i hi
  rw [Finset.mem_range] at hi
  simp only [List.getD_eq_getElem?_getD, hleft i hi, hright i hi, Option.getD_some]

theorem audioSetup_left_length {α : Type} [Zero α] :
    (audioSetup : Audio α).left.length = 256 :=
  List.length_replicate 256 0

theorem audioSetup_right_length {α : Type} [Zero α] :
    (audioSetup : Audio α).right.length = 256 :=
  List.length_replicate 256 0

/-- C13 fails as stated: for the one-frame input `[1, 1]` the code stores
`left[0] = right[0] = 0.5` and computes the level from these stored values,
`sqrt ((0.5 * (0.5 + 0.5))^2) = 0.5`, not from the input pair, which would give
`sqrt ((0.5 * (1 + 1))^2) = 1`. -/
theorem audio_level_counterexample :
    (audioIn Real.sqrt ⟨[1, 1]⟩ audioSetup).audioLevel = 1 / 2 ∧
    ¬ ((audioIn Real.sqrt ⟨[1, 1]⟩ audioSetup).audioLevel =
      Real.sqrt ((∑ i in Finset.range (SoundBuffer.getNumFrames (⟨[1, 1]⟩ : SoundBuffer ℝ)),
        (0.5 * ((⟨[1, 1]⟩ : SoundBuffer ℝ).get (2 * i) +
          (⟨[1, 1]⟩ : SoundBuffer ℝ).get (2 * i + 1))) ^ 2) /
        (SoundBuffer.getNumFrames (⟨[1, 1]⟩ : SoundBuffer ℝ) : ℝ))) := by
  have hn : SoundBuffer.getNumFrames (⟨[1, 1]⟩ : SoundBuffer ℝ) = 1 := rfl
  have h := (audioIn_spec Real.sqrt (⟨[1, 1]⟩ : SoundBuffer ℝ) audioSetup
    (by rw [hn, audioSetup_left_length]; norm_num)
    (by rw [hn, audioSetup_right_length]; norm_num)).2.2.2
  rw [hn] at h ⊢
  have hlevel : (audioIn Real.sqrt ⟨[1, 1]⟩ audioSetup).audioLevel = 1 / 2 := by
    rw [h]
    simp only [Finset.sum_range_one, SoundBuffer.get]
    have : ((((([1, 1] : List ℝ).getD (0 * 2) 0) * 0.5 + (([1, 1] : List ℝ).getD (0 * 2 + 1) 0) * 0.5)
        * 0.5) * (((([1, 1] : List ℝ).getD (0 * 2) 0) * 0.5 +
        (([1, 1] : List ℝ).getD (0 * 2 + 1) 0) * 0.5) * 0.5)) / ((1 : Nat) : ℝ) =
        (1 / 2) ^ 2 := by
      simp
      norm_num
    rw [this]
    exact Real.sqrt_sq (by norm_num)
  refine ⟨hlevel, ?_⟩
  rw [hlevel]
  simp only [Finset.sum_range_one, SoundBuffer.get]
  have : ((0.5 : ℝ) * ((([1, 1] : List ℝ).getD (2 * 0) 0) + (([1, 1] : List ℝ).getD (2 * 0 + 1) 0)))
      ^ 2 / ((1 : Nat) : ℝ) = 1 ^ 2 := by
    simp
    norm_num
  rw [this, Real.sqrt_sq (by norm_num)]
  norm_num

/-- C13 as amended: for an interleaved stereo input of `n` frames with
`1 ≤ n ≤ 256` and buffers of the allocated size 256, `audioIn` stores
`left[i] = 0.5 * input[2i]` and `right[i] = 0.5 * input[2i+1]` for every `i < n`,
every index in bounds, and sets `audioLevel` to
`sqrt (mean over i < n of (0.5 * (l_i + r_i))^2)` where `l_i`, `r_i` are the
stored, already halved samples `left[i]`, `right[i]`; in terms of the input
pair that is `sqrt (mean of (0.5 * (0.5 * input[2i] + 0.5 * input[2i+1]))^2)`.
Arithmetic is over the reals. -/
theorem audioIn_buffers_and_level (input : SoundBuffer ℝ) (a : Audio ℝ)
    (hl : a.left.length = 256) (hr : a.right.length = 256)
    (h1 : 1 ≤ input.getNumFrames) (h2 : input.getNumFrames ≤ 256) :
    (∀ i, i < input.getNumFrames →
      i < (audioIn Real.sqrt input a).left.length ∧
      i < (audioIn Real.sqrt input a).right.length ∧
      2 * i + 1 < input.samples.length ∧
      (audioIn Real.sqrt input a).left[i]? = some (0.5 * input.get (2 * i)) ∧
      (audioIn Real.sqrt input a).right[i]? = some (0.5 * input.get (2 * i + 1))) ∧
    (input.getNumFrames : ℝ) ≠ 0 ∧
    (audioIn Real.sqrt input a).audioLevel =
      Real.sqrt ((∑ i in Finset.range input.getNumFrames,
        (0.5 * ((audioIn Real.sqrt input a).left.getD i 0 +
          (audioIn Real.sqrt input a).right.getD i 0)) ^ 2) / (input.getNumFrames : ℝ)) ∧
    (audioIn Real.sqrt input a).audioLevel =
      Real.sqrt ((∑ i in Finset.range input.getNumFrames,
        (0.5 * (0.5 * input.get (2 * i) + 0.5 * input.get (2 * i + 1))) ^ 2) /
        (input.getNumFrames : ℝ)) := by
  obtain ⟨k1, k2, k3, k4⟩ := audioIn_spec Real.sqrt input a (by rw [hl]; exact h2)
    (by rw [hr]; exact h2)
  have hterm : ∀ i, ((input.get (i * 2) * 0.5 + input.get (i * 2 + 1) * 0.5) * 0.5) *
      ((input.get (i * 2) * 0.5 + input.get (i * 2 + 1) * 0.5) * 0.5) =
      (0.5 * (0.5 * input.get (2 * i) + 0.5 * input.get (2 * i + 1))) ^ 2 := by
    intro i
    rw [Nat.mul_comm i 2]
    ring
  have hlevel : (audioIn Real.sqrt input a).audioLevel =
      Real.sqrt ((∑ i in Finset.range input.getNumFrames,
        (0.5 * (0.5 * input.get (2 * i) + 0.5 * input.get (2 * i + 1))) ^ 2) /
        (input.getNumFrames : ℝ)) := by
    rw [k4]
    congr 2
    exact Finset.sum_congr rfl (fun i _ => hterm i)
  refine ⟨?_, ?_, ?_, hlevel⟩
  · intro i hi
    obtain ⟨e1, e2⟩ := k3 i hi
    have hlen : 2 * i + 1 < input.samples.length := by
      unfold SoundBuffer.getNumFrames at hi
      omega
    refine ⟨by rw [k1, hl]; omega, by rw [k2, hr]; omega, hlen, ?_, ?_⟩
    · rw [e1, Nat.mul_comm i 2, mul_comm]
    · rw [e2, Nat.mul_comm i 2, mul_comm]
  · exact Nat.cast_ne_zero.mpr (by omega)
  · rw [hlevel]
    congr 2
    apply Finset.sum_congr rfl
    intro i hi
    rw [Finset.mem_range] at hi
    obtain ⟨e1, e2⟩ := k3 i hi
    rw [List.getD_eq_getElem?_getD, List.getD_eq_getElem?_getD, e1, e2, Option.getD_some,
      Option.getD_some, Nat.mul_comm i 2, mul_comm (input.get (2 * i)),
      mul_comm (input.get (2 * i + 1))]

/-- C13 as amended, on the one-frame input `[1, 1]` into the buffers of
`setup`: both stored samples are `0.5 * 1`. -/
theorem audioIn_buffers_and_level_witness :
    (audioSetup : Audio ℝ).left.length = 256 ∧ (audioSetup : Audio ℝ).right.length = 256 ∧
    1 ≤ SoundBuffer.getNumFrames (⟨[1, 1]⟩ : SoundBuffer ℝ) ∧
    SoundBuffer.getNumFrames (⟨[1, 1]⟩ : SoundBuffer ℝ) ≤ 256 ∧
    (audioIn Real.sqrt ⟨[1, 1]⟩ audioSetup).left[0]? =
      some (0.5 * (⟨[1, 1]⟩ : SoundBuffer ℝ).get (2 * 0)) ∧
    (audioIn Real.sqrt ⟨[1, 1]⟩ audioSetup).right[0]? =
      some (0.5 * (⟨[1, 1]⟩ : SoundBuffer ℝ).get (2 * 0 + 1)) :=
  have h := (audioIn_buffers_and_level ⟨[1, 1]⟩ audioSetup audioSetup_left_length
    audioSetup_right_length (by decide) (by decide)).1 0 (by decide)
  ⟨audioSetup_left_length, audioSetup_right_length, by decide, by decide, h.2.2.2.1, h.2.2.2.2⟩

end EyesyOF
